import Mathlib

/-!
Verification development for the LoRa discrete-event simulator
(`simulateur_lora_sfrd`): a shallow embedding in Lean 4 of the event
scheduler (`launcher/simulator.py`), the channel airtime formula
(`launcher/channel.py`), the network-server ADR loop and packet
de-duplication (`launcher/server.py`), the node MAC/ADR counters
(`launcher/node.py`) and the gateway capture/collision arbitration
(`launcher/gateway.py`), together with theorems settling the
specification claims about those components.

Conventions: Python floats are modelled as exact rationals (`ℚ`), except
where the source computes logarithms (`math.log10`), which are modelled
over `ℝ` with `Real.logb`.  Python dictionaries keyed by unique ids are
modelled as association lists; the gateway's `active_map` (a dict from
`(sf, frequency)` to lists of receptions, always stored under the key
matching the reception's own `sf`/`frequency` fields) is modelled as the
flattened list of its entries.
-/

namespace LoRaSim

/-! ## Event scheduler (`launcher/simulator.py`)

`EventType` is an `IntEnum` (TX_END = 0, TX_START = 1, MOBILITY = 2,
RX_WINDOW = 3, BEACON = 4, PING_SLOT = 5, SERVER_RX = 6,
SERVER_PROCESS = 7); `Event` is a `@dataclass(order=True)` with fields
`(time, type, id, node_id)`, hence Python compares events
lexicographically on that field tuple.  `heapq.heappush`/`heappop`
maintain a min-heap: `heappop` always returns a minimal element of the
queue.  We model the queue as the list of its elements (push = append)
and `heappop` as removal of the leftmost minimal element. -/

structure Event where
  time : ℚ
  etype : ℕ
  id : ℕ
  node_id : ℕ
  deriving DecidableEq, Repr

def txEndType : ℕ := 0
def txStartType : ℕ := 1
def mobilityType : ℕ := 2
def rxWindowType : ℕ := 3
def beaconType : ℕ := 4

/-- Lexicographic comparison of the dataclass field tuple
`(time, type, id, node_id)`, as generated by `@dataclass(order=True)`. -/
def eventLT (a b : Event) : Prop :=
  a.time < b.time ∨ (a.time = b.time ∧
    (a.etype < b.etype ∨ (a.etype = b.etype ∧
      (a.id < b.id ∨ (a.id = b.id ∧ a.node_id < b.node_id)))))

def eventLE (a b : Event) : Prop := eventLT a b ∨ a = b

instance : DecidablePred (fun p : Event × Event => eventLT p.1 p.2) := by
  intro p; unfold eventLT; infer_instance

instance eventLT.decidable (a b : Event) : Decidable (eventLT a b) := by
  unfold eventLT; infer_instance

instance eventLE.decidable (a b : Event) : Decidable (eventLE a b) := by
  unfold eventLE; infer_instance

/-- The field tuple `(time, type, id, node_id)` under the lexicographic
order, for reasoning about `eventLT`. -/
def eventKey (e : Event) : ℚ ×ₗ (ℕ ×ₗ (ℕ ×ₗ ℕ)) :=
  toLex (e.time, toLex (e.etype, toLex (e.id, e.node_id)))

/-- `heappop` on the model queue: extract the leftmost minimal event,
returning it together with the remaining queue.  `selectMin e l`
computes the minimum of `e :: l`. -/
def selectMin (e : Event) : List Event → Event × List Event
  | [] => (e, [])
  | x :: xs =>
    if eventLT x e then
      let p := selectMin x xs
      (p.1, e :: p.2)
    else
      let p := selectMin e xs
      (p.1, x :: p.2)

def popMin : List Event → Option (Event × List Event)
  | [] => none
  | x :: xs => some (selectMin x xs)

/-- Repeatedly popping the queue yields the dispatch order of the
scheduler loop (the fuel argument only bounds the recursion depth; it
is instantiated with the queue length, which popping decreases by one). -/
def drainAux : ℕ → List Event → List Event
  | 0, _ => []
  | _, [] => []
  | fuel + 1, x :: xs =>
    let p := selectMin x xs
    p.1 :: drainAux fuel p.2

def drainQueue (q : List Event) : List Event := drainAux q.length q

/-- Simulator state relevant to the scheduler claims: the `running`
flag, the simulation clock `current_time`, the event queue, the event-id
counter and the set of known node ids (`self.node_map`). -/
structure SimState where
  running : Bool
  current_time : ℚ
  event_queue : List Event
  event_id_counter : ℕ
  node_ids : List ℕ
  deriving DecidableEq, Repr

/-- Result of one `Simulator.step()` call.  `stopped` models
`return False`; `skipped` models the early `return True` branches that
consume the event without dispatching it; `dispatched` models normal
dispatch.  `invariantViolation` represents an aborted run (raising); the
source never produces it. -/
inductive StepResult where
  | stopped
  | skipped (st : SimState)
  | dispatched (e : Event) (st : SimState)
  | invariantViolation
  deriving DecidableEq, Repr

/-- `Simulator.step()`: pop the minimal event; if the node is unknown
and the event is not a beacon, drop the event (clock untouched);
otherwise set `current_time` to the event's timestamp — with no check
against the previous clock value — and dispatch. -/
def step (st : SimState) : StepResult :=
  if st.running = false then .stopped else
  match popMin st.event_queue with
  | none => .stopped
  | some (e, rest) =>
    if e.node_id ∉ st.node_ids ∧ e.etype ≠ beaconType then
      .skipped { st with event_queue := rest }
    else
      .dispatched e { st with event_queue := rest, current_time := e.time }

/-- `Simulator.schedule_event(node, time)`: dead nodes are ignored;
otherwise the requested time is passed through
`DutyCycleManager.enforce` (when a manager is configured and
`pure_poisson_mode` is off) and replaced only when the enforced time is
later; exactly one `TX_START` event is pushed.  The duty-cycle manager
(`launcher/duty_cycle.py`, not part of the sources here) is abstracted
as an arbitrary function `enforce`. -/
def scheduleEvent (enforce : ℕ → ℚ → ℚ) (dutyCycleManager pure_poisson_mode : Bool)
    (st : SimState) (nodeId : ℕ) (alive : Bool) (time : ℚ) : SimState :=
  if alive = false then st else
  let event_id := st.event_id_counter
  let t :=
    if dutyCycleManager ∧ ¬pure_poisson_mode then
      let enforced := enforce nodeId time
      if time < enforced then enforced else time
    else time
  { st with
    event_id_counter := event_id + 1,
    event_queue := st.event_queue ++ [⟨t, txStartType, event_id, nodeId⟩] }

/-! ## Channel airtime (`launcher/channel.py`, `Channel.airtime`)

The constructor fixes `preamble_symbols = 8` and
`low_data_rate_threshold = 11`; `coding_rate` defaults to `1` and
`bandwidth` to `125e3`.  We keep all four as configuration fields. -/

structure ChannelCfg where
  bandwidth : ℚ
  coding_rate : ℕ
  preamble_symbols : ℚ
  low_data_rate_threshold : ℕ
  deriving DecidableEq, Repr

def defaultChannel : ChannelCfg :=
  { bandwidth := 125000, coding_rate := 1, preamble_symbols := 8
    low_data_rate_threshold := 11 }

/-- The symbol rate `rs = bandwidth / 2 ** sf`. -/
def symbolRate (c : ChannelCfg) (sf : ℕ) : ℚ := c.bandwidth / 2 ^ sf

/-- `de = 1 if sf >= self.low_data_rate_threshold else 0`. -/
def lowDataRateOpt (c : ChannelCfg) (sf : ℕ) : ℤ :=
  if c.low_data_rate_threshold ≤ sf then 1 else 0

/-- `numerator = 8 * payload_size - 4 * sf + 28 + 16 - 20 * 0`. -/
def payloadNumerator (sf : ℕ) (payload_size : ℕ) : ℤ :=
  8 * payload_size - 4 * sf + 28 + 16 - 20 * 0

/-- `denominator = 4 * (sf - 2 * de)`. -/
def payloadDenominator (c : ChannelCfg) (sf : ℕ) : ℤ :=
  4 * ((sf : ℤ) - 2 * lowDataRateOpt c sf)

/-- `n_payload = max(ceil(numerator / denominator), 0) * (CR + 4) + 8`. -/
def nPayload (c : ChannelCfg) (sf : ℕ) (payload_size : ℕ) : ℤ :=
  max ⌈(payloadNumerator sf payload_size : ℚ) / (payloadDenominator c sf : ℚ)⌉ 0 *
    (c.coding_rate + 4) + 8

/-- `Channel.airtime(sf, payload_size)`: symbol duration `ts = 1/rs`
and total time `(preamble_symbols + 4.25)·ts + n_payload·ts`. -/
def airtime (c : ChannelCfg) (sf : ℕ) (payload_size : ℕ) : ℚ :=
  let rs := c.bandwidth / 2 ^ sf
  let ts := 1 / rs
  let t_preamble := (c.preamble_symbols + (17 : ℚ) / 4) * ts
  let t_payload := (nPayload c sf payload_size : ℚ) * ts
  t_preamble + t_payload

/-! ## LoRaWAN constants (`launcher/lorawan.py`) -/

/-- `TX_POWER_INDEX_TO_DBM = {0:14.0, 1:12.0, 2:10.0, 3:8.0, 4:6.0, 5:4.0, 6:2.0}`. -/
def txPowerIndexToDbm : ℕ → Option ℚ
  | 0 => some 14 | 1 => some 12 | 2 => some 10 | 3 => some 8
  | 4 => some 6 | 5 => some 4 | 6 => some 2 | _ => none

/-- `DBM_TO_TX_POWER_INDEX = {int(v): k for k, v in TX_POWER_INDEX_TO_DBM.items()}`. -/
def dbmToTxPowerIndex : ℤ → Option ℕ
  | 14 => some 0 | 12 => some 1 | 10 => some 2 | 8 => some 3
  | 6 => some 4 | 4 => some 5 | 2 => some 6 | _ => none

/-- `max(TX_POWER_INDEX_TO_DBM.keys())`. -/
def maxPowerIndex : ℕ := 6

/-- `SF_TO_DR` (inverse of `DR_TO_SF = {0:12,...,5:7}`), with the
`.get(sf, 5)` default used by `send_downlink`. -/
def sfToDr (sf : ℕ) : ℕ :=
  match sf with
  | 12 => 0 | 11 => 1 | 10 => 2 | 9 => 3 | 8 => 4 | 7 => 5 | _ => 5

/-- Python `int()` on a float/rational: truncation toward zero. -/
def pyInt (x : ℚ) : ℤ := if x < 0 then ⌈x⌉ else ⌊x⌋

/-- Python `round()` on a rational value: round half to even. -/
def pyRound (x : ℚ) : ℤ :=
  let f := ⌊x⌋
  let r := x - (f : ℚ)
  if r < 1 / 2 then f
  else if (1 : ℚ) / 2 < r then f + 1
  else if Even f then f else f + 1

/-! ## Network server (`launcher/server.py`)

Module constants `REQUIRED_SNR` (with the `.get(sf, -20.0)` default) and
`MARGIN_DB = 15.0`. -/

def requiredSNR (sf : ℕ) : ℚ :=
  match sf with
  | 7 => -15 / 2 | 8 => -10 | 9 => -25 / 2 | 10 => -15
  | 11 => -35 / 2 | 12 => -20 | _ => -20

def marginDB : ℚ := 15

/-- The positive-`nstep` loop
`while nstep > 0 and sf > 7: sf -= 1; nstep -= 1` (fuel = `nstep`). -/
def spendSfDown : ℕ → ℕ → ℕ × ℕ
  | 0, sf => (0, sf)
  | n + 1, sf => if 7 < sf then spendSfDown n (sf - 1) else (n + 1, sf)

/-- `while nstep > 0 and p_idx < max_power_index: p_idx += 1; nstep -= 1`. -/
def spendPowerUp : ℕ → ℕ → ℕ × ℕ
  | 0, p => (0, p)
  | n + 1, p => if p < maxPowerIndex then spendPowerUp n (p + 1) else (n + 1, p)

/-- `while nstep < 0 and p_idx > 0: p_idx -= 1; nstep += 1`
(fuel = `-nstep`). -/
def spendPowerDown : ℕ → ℕ → ℕ × ℕ
  | 0, p => (0, p)
  | n + 1, p => if 0 < p then spendPowerDown n (p - 1) else (n + 1, p)

/-- `while nstep < 0 and sf < 12: sf += 1; nstep += 1`. -/
def spendSfUp : ℕ → ℕ → ℕ × ℕ
  | 0, sf => (0, sf)
  | n + 1, sf => if sf < 12 then spendSfUp n (sf + 1) else (n + 1, sf)

/-- The complete step-spending block of the server ADR loop: positive
steps first lower SF (floor 7) then raise the power index (cap
`max_power_index`); negative steps first lower the power index (floor 0)
then raise SF (cap 12). -/
def applyAdrSteps (nstep : ℤ) (sf p_idx : ℕ) : ℕ × ℕ :=
  if 0 < nstep then
    let r1 := spendSfDown nstep.toNat sf
    let r2 := spendPowerUp r1.1 p_idx
    (r1.2, r2.2)
  else if nstep < 0 then
    let r1 := spendPowerDown (-nstep).toNat p_idx
    let r2 := spendSfUp r1.1 sf
    (r2.2, r1.2)
  else (sf, p_idx)

/-- Python `max` on a list (the model never applies it to `[]`). -/
def qListMax : List ℚ → ℚ
  | [] => 0
  | x :: xs => xs.foldl max x

/-- Node fields referenced by `NetworkServer.receive` and
`send_downlink`. -/
structure ServerNode where
  id : ℕ
  sf : ℕ
  tx_power : ℚ
  snr_history : List ℚ
  last_adr_ack_req : Bool
  activated : Bool
  chmask : ℕ
  nb_trans : ℕ
  fcnt_down : ℕ
  last_uplink_end_time : Option ℚ
  deriving DecidableEq, Repr

/-- Downlink frames queued by the server, reduced to the fields the
claims observe.  `send_downlink` with an `adr_command` builds a
`LinkADRReq(dr, p_idx, chmask, nb_trans)` payload; `_activate` sends a
`JoinAccept`.  The downlink scheduler that routes the frame to an RX
window is out of scope and is modelled as this queue. -/
inductive Downlink where
  | linkAdrReq (node_id dr p_idx chmask nb_trans : ℕ)
  | joinAccept (node_id : ℕ)
  deriving DecidableEq, Repr

/-- Server state touched by `NetworkServer.receive` (frame-less path).
`noise_floor` stands for the value of `self.channel.noise_floor_dBm()`
at this reception, and `has_gateway` for `self.gateways` being
non-empty (otherwise `send_downlink` returns without queueing). -/
structure ServerState where
  received_events : List ℕ
  event_gateway : List (ℕ × ℕ)
  packets_received : ℕ
  duplicate_packets : ℕ
  nodes : List ServerNode
  downlinks : List Downlink
  adr_enabled : Bool
  adr_method : String
  noise_floor : ℚ
  has_gateway : Bool
  deriving DecidableEq, Repr

/-- Replace the first node with the given id. -/
def updateNode (nodes : List ServerNode) (nid : ℕ) (f : ServerNode → ServerNode) :
    List ServerNode :=
  match nodes with
  | [] => []
  | n :: ns => if n.id = nid then f n :: ns else n :: updateNode ns nid f

/-- `NetworkServer.send_downlink(node, adr_command=...)`: no-op without
a gateway; otherwise builds the `LinkADRReq` payload (2-tuple commands
take `chmask`/`nb_trans` from the node) and queues it, incrementing the
node's `fcnt_down`. -/
def sendDownlinkAdr (st : ServerState) (nd : ServerNode)
    (sf : ℕ) (power : ℚ) (chmask nb_trans : ℕ) : ServerState :=
  if st.has_gateway = false then st else
  let dr := sfToDr sf
  let p_idx := (dbmToTxPowerIndex (pyInt power)).getD 0
  { st with
    downlinks := st.downlinks ++ [.linkAdrReq nd.id dr p_idx chmask nb_trans],
    nodes := updateNode st.nodes nd.id (fun n => { n with fcnt_down := n.fcnt_down + 1 }) }

/-- The server state after an applied ADR change: the node carries the
new SF/power with a cleared SNR window, a `LinkADRReq` downlink is
queued, and `send_downlink` bumps the node's `fcnt_down`. -/
def adrAppliedState (st : ServerState) (nd : ServerNode) (sfN : ℕ) (powerN : ℚ) :
    ServerState :=
  let ns1 := updateNode st.nodes nd.id
    (fun n => { n with sf := sfN, tx_power := powerN, snr_history := [] })
  let ns2 := updateNode ns1 nd.id (fun n => { n with fcnt_down := n.fcnt_down + 1 })
  { st with
    nodes := ns2,
    downlinks := st.downlinks ++
      [.linkAdrReq nd.id (sfToDr sfN) ((dbmToTxPowerIndex (pyInt powerN)).getD 0)
        nd.chmask nd.nb_trans] }

/-- The server state when only the node's SNR window changes. -/
def adrHistoryState (st : ServerState) (nd : ServerNode) (hist : List ℚ) :
    ServerState :=
  let ns := updateNode st.nodes nd.id (fun n => { n with snr_history := hist })
  { st with nodes := ns }

/-- The node update applied when the ADR decision changes SF/power
(`node.sf = sf; node.tx_power = power; node.snr_history.clear()`). -/
def adrChangedNodes (st : ServerState) (nd : ServerNode) (sfN : ℕ) (powerN : ℚ) :
    ServerState :=
  let ns := updateNode st.nodes nd.id
    (fun n => { n with sf := sfN, tx_power := powerN, snr_history := [] })
  { st with nodes := ns }

/-- The server-side ADR block of `NetworkServer.receive` (the part
guarded by `self.adr_enabled and rssi is not None`), acting on the node
found for `node_id`. -/
def serverAdrStep (st : ServerState) (nd : ServerNode) (rssi : ℚ) : ServerState :=
  let snr := rssi - st.noise_floor
  let hist0 := nd.snr_history ++ [snr]
  let hist := if 20 < hist0.length then hist0.drop 1 else hist0
  if 20 ≤ hist.length then
    let snr_m := if st.adr_method = "avg" then hist.sum / hist.length else qListMax hist
    let required := requiredSNR nd.sf
    let margin := snr_m - required - marginDB
    let nstep := pyRound (margin / 3)
    let p_idx := (dbmToTxPowerIndex (pyInt nd.tx_power)).getD 0
    let r := applyAdrSteps nstep nd.sf p_idx
    let sf' := r.1
    let power := (txPowerIndexToDbm r.2).getD nd.tx_power
    if sf' ≠ nd.sf ∨ power ≠ nd.tx_power then
      sendDownlinkAdr (adrChangedNodes st nd sf' power) nd sf' power
        nd.chmask nd.nb_trans
    else
      adrHistoryState st nd hist
  else
    adrHistoryState st nd hist

/-- `node.last_uplink_end_time = end_time`. -/
def recordUplinkEnd (st : ServerState) (nd : ServerNode) (end_time : Option ℚ) :
    ServerState :=
  let ns := updateNode st.nodes nd.id
    (fun n => { n with last_uplink_end_time := end_time })
  { st with nodes := ns }

/-- `if node and not node.activated: self._activate(node)` — the
activation machinery queues a JoinAccept downlink. -/
def activateIfNeeded (st : ServerState) (nd : ServerNode) : ServerState :=
  if nd.activated = false then
    { st with downlinks := st.downlinks ++ [.joinAccept nd.id] }
  else st

/-- `if node.last_adr_ack_req:` reply with the current parameters and
clear the flag. -/
def answerAdrAckReq (st : ServerState) (nd : ServerNode) : ServerState :=
  if nd.last_adr_ack_req then
    let st' := sendDownlinkAdr st nd nd.sf nd.tx_power nd.chmask nd.nb_trans
    let ns := updateNode st'.nodes nd.id
      (fun n => { n with last_adr_ack_req := false })
    { st' with nodes := ns }
  else st

/-- The `self.adr_enabled and rssi is not None` guard, re-finding the
node as the source does. -/
def adrPhase (st : ServerState) (node_id : ℕ) (rssi : Option ℚ) : ServerState :=
  match rssi with
  | none => st
  | some r =>
    if st.adr_enabled then
      match st.nodes.find? (fun n => n.id = node_id) with
      | none => st
      | some nd' => serverAdrStep st nd' r
    else st

/-- The node-dependent tail of `NetworkServer.receive` on the
frame-less path (`frame is None`, so the join-request and MIC branches
are skipped): store `last_uplink_end_time`, activate an inactive node,
answer a pending `ADRACKReq`, then run the ADR block. -/
def receiveNodePhase (st : ServerState) (node_id : ℕ) (rssi : Option ℚ)
    (end_time : Option ℚ) : ServerState :=
  match st.nodes.find? (fun n => n.id = node_id) with
  | none => st
  | some nd =>
    adrPhase (answerAdrAckReq (activateIfNeeded (recordUplinkEnd st nd end_time) nd) nd)
      node_id rssi

/-- `NetworkServer.receive(event_id, node_id, gateway_id, rssi,
frame=None, end_time)`: duplicate event ids only bump
`duplicate_packets`; a first reception is recorded (id, gateway,
counter) and then processed. -/
def recordFirstReception (st : ServerState) (event_id gateway_id : ℕ) : ServerState :=
  { st with
    received_events := event_id :: st.received_events,
    event_gateway := (event_id, gateway_id) :: st.event_gateway,
    packets_received := st.packets_received + 1 }

def receive (st : ServerState) (event_id node_id gateway_id : ℕ)
    (rssi : Option ℚ) (end_time : Option ℚ) : ServerState :=
  if event_id ∈ st.received_events then
    { st with duplicate_packets := st.duplicate_packets + 1 }
  else
    receiveNodePhase (recordFirstReception st event_id gateway_id) node_id rssi end_time

/-! ## Node MAC / ADR counters (`launcher/node.py`)

Fields of `Node` referenced by `prepare_uplink` and
`_check_adr_ack_delay`.  Frame payload handling, security sealing and
the acknowledgement statistics of `_record_ack` only touch bookkeeping
that no claim observes and are omitted from the state. -/

structure NodeSt where
  sf : ℕ
  tx_power : ℚ
  adr : Bool
  activated : Bool
  awaiting_ack : Bool
  adr_ack_cnt : ℕ
  adr_ack_limit : ℕ
  adr_ack_delay : ℕ
  fcnt_up : ℕ
  last_adr_ack_req : Bool
  need_downlink_ack : Bool
  devnonce : ℕ
  deriving DecidableEq, Repr

/-- What `prepare_uplink` returns: an OTAA `JoinRequest` for an
unactivated node, or a data frame with the computed `mhdr`/`fctrl` and
the frame counter it was sealed with. -/
inductive UplinkFrame where
  | joinRequest
  | dataFrame (mhdr fctrl fcnt : ℕ) (confirmed : Bool)
  deriving DecidableEq, Repr

/-- `Node._check_adr_ack_delay`: when `adr_ack_cnt ≥ adr_ack_limit +
adr_ack_delay`, raise SF by one if below 12, otherwise lower the
tx-power index by one if it is positive; in every triggered case reset
`adr_ack_cnt` to 0. -/
def checkAdrAckDelay (n : NodeSt) : NodeSt :=
  if n.adr_ack_limit + n.adr_ack_delay ≤ n.adr_ack_cnt then
    if n.sf < 12 then
      { n with sf := n.sf + 1, adr_ack_cnt := 0 }
    else
      let idx := (dbmToTxPowerIndex (pyInt n.tx_power)).getD 0
      if 0 < idx then
        { n with tx_power := (txPowerIndexToDbm (idx - 1)).getD n.tx_power,
                 adr_ack_cnt := 0 }
      else
        { n with adr_ack_cnt := 0 }
  else n

/-- `Node.prepare_uplink(payload, confirmed)` (state transitions only):
clear a pending ack wait, emit a join request when unactivated
(bumping `devnonce`), otherwise compute `mhdr`/`fctrl` (ADR bit 0x80,
ADRACKReq bit 0x40 once `adr_ack_cnt ≥ adr_ack_limit`), record
`last_adr_ack_req`, increment `fcnt_up`, and for ADR nodes increment
`adr_ack_cnt` and run `_check_adr_ack_delay`. -/
def prepareUplink (n : NodeSt) (confirmed : Bool) : NodeSt × UplinkFrame :=
  let n := if n.awaiting_ack then { n with awaiting_ack := false } else n
  if n.activated = false then
    ({ n with devnonce := (n.devnonce + 1) % 65536 }, .joinRequest)
  else
    let mhdr := if confirmed then 128 else 64
    let adrAckReq := n.adr ∧ n.adr_ack_limit ≤ n.adr_ack_cnt
    let fctrl := (if n.need_downlink_ack then 32 else 0) +
      (if n.adr then 128 + (if n.adr_ack_limit ≤ n.adr_ack_cnt then 64 else 0) else 0)
    let n := { n with last_adr_ack_req := decide adrAckReq }
    let fcnt := n.fcnt_up
    let n := { n with fcnt_up := n.fcnt_up + 1 }
    let n := if n.adr then checkAdrAckDelay { n with adr_ack_cnt := n.adr_ack_cnt + 1 }
      else n
    let n := if confirmed then { n with awaiting_ack := true } else n
    let n := { n with need_downlink_ack := false }
    (n, .dataFrame mhdr fctrl fcnt confirmed)

/-- The node state handed to `_check_adr_ack_delay` inside
`prepare_uplink` (ack wait cleared, `ADRACKReq` flag recorded, frame
counter and `adr_ack_cnt` incremented). -/
def preUplinkAdrState (n : NodeSt) : NodeSt :=
  { n with
    awaiting_ack := false,
    last_adr_ack_req := decide (n.adr = true ∧ n.adr_ack_limit ≤ n.adr_ack_cnt),
    fcnt_up := n.fcnt_up + 1,
    adr_ack_cnt := n.adr_ack_cnt + 1 }

/-! ## Gateway capture / collision arbitration (`launcher/gateway.py`)

A `Gateway` keeps `active_map : dict[(sf, frequency), list[dict]]` plus
an `active_by_event` index.  Every entry is stored under the key equal
to its own `(sf, frequency)` fields and event ids are unique, so the
state is modelled as the flattened list of active receptions.  Python
float arithmetic is modelled over `ℚ` except for `10*log10(...)`, which
is modelled over `ℝ`. -/

structure Tx where
  event_id : ℕ
  node_id : ℕ
  sf : ℕ
  frequency : ℚ
  rssi : ℚ
  end_time : ℚ
  start_time : ℚ
  freq_offset : ℚ
  sync_offset : ℚ
  bandwidth : ℚ
  lost_flag : Bool
  deriving DecidableEq, Repr, Inhabited

/-- The parameters of `Gateway.start_reception`. -/
structure RxArgs where
  event_id : ℕ
  node_id : ℕ
  sf : ℕ
  rssi : ℚ
  end_time : ℚ
  capture_threshold : ℚ
  current_time : ℚ
  frequency : ℚ
  min_interference_time : ℚ
  freq_offset : ℚ
  sync_offset : ℚ
  bandwidth : ℚ
  noise_floor : Option ℚ
  orthogonal_sf : Bool
  deriving DecidableEq, Repr

/-- The `new_transmission` record built by `start_reception`. -/
def newTx (a : RxArgs) : Tx :=
  { event_id := a.event_id, node_id := a.node_id, sf := a.sf,
    frequency := a.frequency, rssi := a.rssi, end_time := a.end_time,
    start_time := a.current_time, freq_offset := a.freq_offset,
    sync_offset := a.sync_offset, bandwidth := a.bandwidth,
    lost_flag := false }

/-- Candidate gathering plus the two filters of `start_reception`:
same key (or same frequency when `orthogonal_sf` is off), still active
(`end_time > current_time`), and overlap with the new transmission
exceeding `min_interference_time`. -/
def interferingOf (st : List Tx) (a : RxArgs) : List Tx :=
  let candidates :=
    if a.orthogonal_sf then
      st.filter (fun t => decide (t.sf = a.sf ∧ t.frequency = a.frequency))
    else
      st.filter (fun t => decide (t.frequency = a.frequency))
  let concurrent := candidates.filter (fun t => decide (a.current_time < t.end_time))
  concurrent.filter (fun t => decide ((a.orthogonal_sf = true → t.sf = a.sf) ∧
    a.min_interference_time < min t.end_time a.end_time - a.current_time))

/-- Index of the first (leftmost) maximal element — the head of a
stable descending sort, as produced by Python's
`sort(key=..., reverse=True)` / `sorted(..., reverse=True)`. -/
def firstMaxIdx {α : Type} [LinearOrder α] : List α → ℕ
  | [] => 0
  | [_] => 0
  | x :: y :: ys =>
    let j := firstMaxIdx (y :: ys)
    if x < (y :: ys).getD j x then j + 1 else 0

/-- `_penalty`'s frequency mismatch factor `|Δf| / (bw/2)`. -/
def penaltyFreqFactor (tx1 tx2 : Tx) : ℚ :=
  |tx1.freq_offset - tx2.freq_offset| / (tx1.bandwidth / 2)

/-- `_penalty`'s time mismatch factor `|Δt| / symbol_time`. -/
def penaltyTimeFactor (tx1 tx2 : Tx) : ℚ :=
  |(tx1.start_time + tx1.sync_offset) - (tx2.start_time + tx2.sync_offset)| /
    ((2 ^ tx1.sf : ℚ) / tx1.bandwidth)

/-- `_penalty` returns `float('inf')` when both factors reach 1. -/
def penaltyInf (tx1 tx2 : Tx) : Prop :=
  1 ≤ penaltyFreqFactor tx1 tx2 ∧ 1 ≤ penaltyTimeFactor tx1 tx2

instance (tx1 tx2 : Tx) : Decidable (penaltyInf tx1 tx2) := by
  unfold penaltyInf; infer_instance

/-- The finite branch of `_penalty`:
`10 * log10(1 + freq_factor² + time_factor²)`. -/
noncomputable def penaltyVal (tx1 tx2 : Tx) : ℝ :=
  10 * Real.logb 10
    (1 + (penaltyFreqFactor tx1 tx2 : ℝ) ^ 2 + (penaltyTimeFactor tx1 tx2 : ℝ) ^ 2)

/-- Runner-up metric of one interferer in basic mode:
`t['rssi'] - _penalty(strongest, t)` (`⊥` models `-inf`). -/
noncomputable def basicMetric (strongest t : Tx) : WithBot ℝ :=
  if penaltyInf strongest t then ⊥
  else ((t.rssi : ℝ) - penaltyVal strongest t : ℝ)

noncomputable def listMaxWB (l : List (WithBot ℝ)) : WithBot ℝ := l.foldl max ⊥

/-- `10 ** (x / 10)`. -/
noncomputable def pow10 (x : ℝ) : ℝ := (10 : ℝ) ^ (x / 10)

/-- `_snr(i)` of advanced/omnet mode: the signal's RSSI over the noise
floor plus the penalized powers of all other colliders (infinite
penalties contribute nothing). -/
noncomputable def advSnr (colliders : List Tx) (nf : ℝ) (i : ℕ) : ℝ :=
  let ti := colliders.getD i default
  let total := pow10 nf +
    ((colliders.enum.filter (fun p => decide (p.1 ≠ i))).map (fun p =>
      if penaltyInf ti p.2 then 0
      else pow10 ((p.2.rssi : ℝ) - penaltyVal ti p.2))).sum
  (ti.rssi : ℝ) - 10 * Real.logb 10 total

noncomputable def advSnrs (colliders : List Tx) (nf : ℝ) : List ℝ :=
  (List.range colliders.length).map (advSnr colliders nf)

/-- Outcome of the per-mode ranking: index of the provisional winner
(head of the stable descending sort), its metric, and the runner-up
metric `second` (`⊥` = `-inf`). -/
structure Ranking where
  istar : ℕ
  metric : ℝ
  second : WithBot ℝ

/-- Basic mode: rank by raw RSSI; the runner-up metric penalizes each
other collider against the winner. -/
noncomputable def rankBasic (colliders : List Tx) : Ranking :=
  let istar := firstMaxIdx (colliders.map (fun t => t.rssi))
  let strongest := colliders.getD istar default
  { istar := istar, metric := (strongest.rssi : ℝ),
    second := listMaxWB ((colliders.eraseIdx istar).map (basicMetric strongest)) }

/-- Advanced/omnet mode: rank by `_snr`; the runner-up metric is the
best `_snr` among the other colliders. -/
noncomputable def rankAdvanced (colliders : List Tx) (nf : ℚ) : Ranking :=
  let snrs := advSnrs colliders (nf : ℝ)
  let istar := firstMaxIdx snrs
  { istar := istar, metric := snrs.getD istar 0,
    second := listMaxWB ((snrs.eraseIdx istar).map (fun x => (x : WithBot ℝ))) }

inductive CaptureMode where
  | basic
  | advanced
  deriving DecidableEq, Repr

/-- Mode dispatch of `start_reception` (advanced/omnet requires a noise
floor, otherwise the basic branch runs; flora mode is out of scope of
the claims and not modelled). -/
noncomputable def ranking (mode : CaptureMode) (a : RxArgs) (colliders : List Tx) :
    Ranking :=
  match mode, a.noise_floor with
  | .advanced, some nf => rankAdvanced colliders nf
  | _, _ => rankBasic colliders

/-- `strongest_metric - second >= capture_threshold`, where
`second = -inf` satisfies the bound vacuously. -/
def marginOk (thr : ℚ) (r : Ranking) : Prop :=
  ∀ s : ℝ, r.second = (s : WithBot ℝ) → (thr : ℝ) ≤ r.metric - s

/-- `_enough_preamble(winner, colliders)`: every other collider started
no earlier than the winner and at least five of the winner's symbol
periods after it (`sym_time = 2**winner.sf / bandwidth` with the
call's `bandwidth` argument).  Object identity `other is winner` is
rendered as event-id disequality (event ids are unique). -/
def enoughPreamble (a : RxArgs) (winner : Tx) (colliders : List Tx) : Prop :=
  ∀ t ∈ colliders, t.event_id ≠ winner.event_id →
    0 ≤ t.start_time - winner.start_time ∧
    5 * ((2 ^ winner.sf : ℚ) / a.bandwidth) ≤ t.start_time - winner.start_time

/-- The final 5-symbol rule: the winner must be a previously active
transmission (not the new one) that started at least five symbol
durations (`2**sf / bandwidth` of the new transmission) before
`current_time`. -/
def captureElapsedOk (a : RxArgs) (winner : Tx) : Prop :=
  winner.event_id ≠ a.event_id ∧
  5 * ((2 ^ a.sf : ℚ) / a.bandwidth) ≤ a.current_time - winner.start_time

/-- The complete capture decision for a non-empty interferer set:
`capture` is set when the margin and preamble conditions hold (or there
is no runner-up at all), and then confirmed by the 5-symbol rule. -/
noncomputable def captureHappens (mode : CaptureMode) (st : List Tx) (a : RxArgs) :
    Prop :=
  let colliders := interferingOf st a ++ [newTx a]
  let r := ranking mode a colliders
  let strongest := colliders.getD r.istar default
  (colliders.eraseIdx r.istar = [] ∨
    (marginOk a.capture_threshold r ∧ enoughPreamble a strongest colliders)) ∧
  captureElapsedOk a strongest

open Classical in
/-- `Gateway.start_reception`, returning the new active list: admit the
transmission when nothing interferes; on capture keep the winner
(adding it if it is the new transmission) and remove every losing
interferer; otherwise remove every interferer and drop the new
transmission. -/
noncomputable def startReception (mode : CaptureMode) (st : List Tx) (a : RxArgs) :
    List Tx :=
  let interfering := interferingOf st a
  if interfering = [] then st ++ [newTx a]
  else
    let colliders := interfering ++ [newTx a]
    let r := ranking mode a colliders
    let strongest := colliders.getD r.istar default
    if captureHappens mode st a then
      let st1 := st.filter
        (fun t => decide (¬(t ∈ interfering ∧ t.event_id ≠ strongest.event_id)))
      if strongest.event_id = a.event_id then st1 ++ [newTx a] else st1
    else
      st.filter (fun t => decide (t ∉ interfering))

/-- The notification `end_reception` passes to
`NetworkServer.schedule_receive` on success. -/
structure RxReport where
  event_id : ℕ
  node_id : ℕ
  rssi : ℚ
  at_time : ℚ
  deriving DecidableEq, Repr

/-- `Gateway.end_reception(event_id, network_server, node_id)`: pop the
reception from the active index; when present and not lost, remove it
and report it, otherwise drop it silently; an absent id is a no-op. -/
def endReception (st : List Tx) (event_id node_id : ℕ) :
    List Tx × Option RxReport :=
  match st.find? (fun t => decide (t.event_id = event_id)) with
  | none => (st, none)
  | some t =>
    let st' := st.eraseP (fun u => decide (u.event_id = event_id))
    if t.lost_flag = false then
      (st', some ⟨event_id, node_id, t.rssi, t.end_time⟩)
    else (st', none)

/-- A weak transmission already active on the gateway: RSSI −100 dBm,
SF7 at 868 MHz, started at t = 0, ending at t = 10. -/
def txWeak : Tx := ⟨1, 1, 7, 868, -100, 10, 0, 0, 0, 125000, false⟩

/-- A strong new arrival colliding with `txWeak`: RSSI −50 dBm, same SF
and frequency, arriving at t = 0 with capture threshold 6 dB. -/
def rxStrong : RxArgs := ⟨2, 2, 7, -50, 10, 6, 0, 868, 0, 0, 0, 125000, none, true⟩

/-- A strong transmission already active on the gateway: RSSI −50 dBm,
SF7 at 868 MHz, started at t = 0 with sync offset 1, ending at t = 10. -/
def txCap : Tx := ⟨1, 1, 7, 868, -50, 10, 0, 0, 1, 125000, false⟩

/-- A weaker new arrival colliding with `txCap`: RSSI −56 dBm, same SF
and frequency, arriving at t = 1 with capture threshold 6 dB — the
winner's margin is exactly the threshold. -/
def rxCap : RxArgs := ⟨2, 2, 7, -56, 10, 6, 1, 868, 0, 0, 0, 125000, none, true⟩

/-! ## Theorems -/

/-! ### Event ordering and the scheduler (claims C3, C4, C8) -/

theorem eventLT_iff_key (a b : Event) : eventLT a b ↔ eventKey a < eventKey b := by
  simp only [eventLT, eventKey, Prod.Lex.lt_iff]

theorem eventKey_injective : Function.Injective eventKey := by
  intro a b h
  have h' := congrArg ofLex h
  simp only [eventKey, ofLex_toLex, Prod.mk.injEq] at h'
  obtain ⟨h1, h2⟩ := h'
  have h2' := congrArg ofLex h2
  simp only [ofLex_toLex, Prod.mk.injEq] at h2'
  obtain ⟨h3, h4⟩ := h2'
  have h4' := congrArg ofLex h4
  simp only [ofLex_toLex, Prod.mk.injEq] at h4'
  obtain ⟨h5, h6⟩ := h4'
  cases a; cases b; simp_all

theorem eventLE_iff_key (a b : Event) : eventLE a b ↔ eventKey a ≤ eventKey b := by
  unfold eventLE
  rw [le_iff_lt_or_eq, eventLT_iff_key]
  constructor
  · rintro (h | rfl)
    · exact Or.inl h
    · exact Or.inr rfl
  · rintro (h | h)
    · exact Or.inl h
    · exact Or.inr (eventKey_injective h)

theorem eventLE_refl (a : Event) : eventLE a a := Or.inr rfl

theorem eventLE_trans {a b c : Event} (h1 : eventLE a b) (h2 : eventLE b c) :
    eventLE a c := by
  rw [eventLE_iff_key] at *
  exact le_trans h1 h2

theorem eventLE_of_not_lt {a b : Event} (h : ¬ eventLT a b) : eventLE b a := by
  rw [eventLE_iff_key]
  rw [eventLT_iff_key] at h
  exact le_of_not_lt h

theorem eventLE_of_lt {a b : Event} (h : eventLT a b) : eventLE a b := Or.inl h

theorem selectMin_fst_le (e : Event) (l : List Event) :
    ∀ x ∈ e :: l, eventLE (selectMin e l).1 x := by
  induction l generalizing e with
  | nil =>
    intro x hx
    simp only [List.mem_singleton] at hx
    subst hx
    exact eventLE_refl x
  | cons y ys ih =>
    intro x hx
    by_cases h : eventLT y e
    · have hsel : selectMin e (y :: ys) = ((selectMin y ys).1, e :: (selectMin y ys).2) := by
        simp [selectMin, h]
      rw [hsel]
      rcases List.mem_cons.mp hx with rfl | hx'
      · exact eventLE_trans (ih y y (List.mem_cons_self y ys)) (eventLE_of_lt h)
      · exact ih y x hx'
    · have hsel : selectMin e (y :: ys) = ((selectMin e ys).1, y :: (selectMin e ys).2) := by
        simp [selectMin, h]
      rw [hsel]
      rcases List.mem_cons.mp hx with rfl | hx'
      · exact ih x x (List.mem_cons_self x ys)
      · rcases List.mem_cons.mp hx' with rfl | hx''
        · exact eventLE_trans (ih e e (List.mem_cons_self e ys)) (eventLE_of_not_lt h)
        · exact ih e x (List.mem_cons.mpr (Or.inr hx''))

theorem selectMin_perm (e : Event) (l : List Event) :
    ((selectMin e l).1 :: (selectMin e l).2).Perm (e :: l) := by
  induction l generalizing e with
  | nil => simp [selectMin]
  | cons y ys ih =>
    by_cases h : eventLT y e
    · have hsel : selectMin e (y :: ys) = ((selectMin y ys).1, e :: (selectMin y ys).2) := by
        simp [selectMin, h]
      rw [hsel]
      exact (List.Perm.swap e (selectMin y ys).1 (selectMin y ys).2).trans
        ((ih y).cons e)
    · have hsel : selectMin e (y :: ys) = ((selectMin e ys).1, y :: (selectMin e ys).2) := by
        simp [selectMin, h]
      rw [hsel]
      exact (List.Perm.swap y (selectMin e ys).1 (selectMin e ys).2).trans
        (((ih e).cons y).trans (List.Perm.swap e y ys))

theorem selectMin_snd_length (e : Event) (l : List Event) :
    (selectMin e l).2.length = l.length := by
  induction l generalizing e with
  | nil => simp [selectMin]
  | cons y ys ih =>
    by_cases h : eventLT y e <;> simp [selectMin, h, ih]

theorem drainAux_perm (fuel : ℕ) :
    ∀ q : List Event, q.length ≤ fuel → (drainAux fuel q).Perm q := by
  induction fuel with
  | zero =>
    intro q hq
    rw [List.length_eq_zero.mp (Nat.le_zero.mp hq)]
    simp [drainAux]
  | succ n ih =>
    intro q hq
    match q with
    | [] => simp [drainAux]
    | x :: xs =>
      have hlen : (selectMin x xs).2.length ≤ n := by
        rw [selectMin_snd_length]
        simpa using hq
      exact ((ih _ hlen).cons _).trans (selectMin_perm x xs)

theorem drainQueue_perm (q : List Event) : (drainQueue q).Perm q :=
  drainAux_perm q.length q le_rfl

theorem mem_of_mem_drainAux (fuel : ℕ) :
    ∀ (q : List Event) (b : Event), b ∈ drainAux fuel q → b ∈ q := by
  induction fuel with
  | zero =>
    intro q b hb
    simp [drainAux] at hb
  | succ n ih =>
    intro q b hb
    match q with
    | [] => simp [drainAux] at hb
    | x :: xs =>
      rw [show drainAux (n + 1) (x :: xs) =
        (selectMin x xs).1 :: drainAux n (selectMin x xs).2 from rfl] at hb
      rcases List.mem_cons.mp hb with rfl | hb'
      · exact (selectMin_perm x xs).mem_iff.mp (List.mem_cons_self _ _)
      · exact (selectMin_perm x xs).mem_iff.mp
          (List.mem_cons.mpr (Or.inr (ih _ b hb')))

theorem drainAux_sorted (fuel : ℕ) :
    ∀ q : List Event, List.Sorted eventLE (drainAux fuel q) := by
  induction fuel with
  | zero => intro q; simp [drainAux]
  | succ n ih =>
    intro q
    match q with
    | [] => simp [drainAux]
    | x :: xs =>
      rw [show drainAux (n + 1) (x :: xs) =
        (selectMin x xs).1 :: drainAux n (selectMin x xs).2 from rfl]
      rw [List.sorted_cons]
      refine ⟨?_, ih _⟩
      intro b hb
      have hb' : b ∈ (selectMin x xs).2 := mem_of_mem_drainAux n _ b hb
      have hb'' : b ∈ x :: xs :=
        (selectMin_perm x xs).mem_iff.mp (List.mem_cons.mpr (Or.inr hb'))
      exact selectMin_fst_le x xs b hb''

theorem drainQueue_sorted (q : List Event) : List.Sorted eventLE (drainQueue q) :=
  drainAux_sorted q.length q

/-- **C3**: event dispatch is deterministic and totally ordered.
Repeatedly popping the queue (`drainQueue`, the dispatch order of
`step()`) yields a permutation of the scheduled events sorted by the
event order, which compares first by `time`, then — for equal times —
by the kind-priority field `etype`, and then by the insertion-sequence
id.  Dispatch order is a function of the queue contents, so replaying
the same sequence of `schedule` calls reproduces it exactly. -/
theorem event_dispatch_total_order (q : List Event) :
    (drainQueue q).Perm q ∧ List.Sorted eventLE (drainQueue q) ∧
    (∀ e1 e2 : Event, e1.time < e2.time → eventLT e1 e2) ∧
    (∀ e1 e2 : Event, e1.time = e2.time → e1.etype < e2.etype → eventLT e1 e2) ∧
    (∀ e1 e2 : Event, e1.time = e2.time → e1.etype = e2.etype → e1.id < e2.id →
      eventLT e1 e2) := by
  refine ⟨drainQueue_perm q, drainQueue_sorted q, ?_, ?_, ?_⟩
  · intro e1 e2 h
    exact Or.inl h
  · intro e1 e2 ht hk
    exact Or.inr ⟨ht, Or.inl hk⟩
  · intro e1 e2 ht hk hid
    exact Or.inr ⟨ht, Or.inr ⟨hk, Or.inl hid⟩⟩

theorem event_dispatch_total_order_witness :
    drainQueue [⟨2, 0, 0, 0⟩, ⟨1, 3, 4, 0⟩, ⟨1, 1, 9, 0⟩] =
      [⟨1, 1, 9, 0⟩, ⟨1, 3, 4, 0⟩, ⟨2, 0, 0, 0⟩] ∧
    eventLT ⟨1, 3, 4, 0⟩ ⟨2, 0, 0, 0⟩ ∧ eventLT ⟨1, 1, 9, 0⟩ ⟨1, 3, 4, 0⟩ ∧
    eventLT ⟨1, 1, 4, 0⟩ ⟨1, 1, 9, 0⟩ := by
  refine ⟨by decide, ?_, ?_, ?_⟩
  · exact (event_dispatch_total_order []).2.2.1 _ _ (by norm_num)
  · exact (event_dispatch_total_order []).2.2.2.1 _ _ (by norm_num) (by norm_num)
  · exact (event_dispatch_total_order []).2.2.2.2 _ _ rfl rfl (by norm_num)

/-- **C4** (counterexample): popping an event whose timestamp `1` lies
strictly before the current clock `5` does not abort: `step()` simply
dispatches it and moves the clock backwards to `1`. -/
theorem step_processes_past_event :
    step { running := true, current_time := 5,
           event_queue := [⟨1, txStartType, 0, 0⟩], event_id_counter := 3,
           node_ids := [0] } =
      .dispatched ⟨1, txStartType, 0, 0⟩
        { running := true, current_time := 1,
          event_queue := [], event_id_counter := 3, node_ids := [0] } ∧
    (1 : ℚ) < 5 := by
  constructor
  · decide
  · norm_num

/-- **C4** (amended): `step()` performs no monotonicity check at all:
whenever it pops an event for a known node it sets the clock to that
event's timestamp unconditionally — even when the timestamp lies before
the current clock, the event is processed silently and the clock moves
backwards; no invariant violation is ever raised. -/
theorem step_sets_clock_unconditionally (st : SimState) (e : Event)
    (rest : List Event) (hrun : st.running = true)
    (hpop : popMin st.event_queue = some (e, rest))
    (hnode : e.node_id ∈ st.node_ids) :
    step st = .dispatched e { st with event_queue := rest, current_time := e.time } := by
  unfold step
  rw [hrun, hpop]
  simp [hnode]

theorem step_sets_clock_unconditionally_witness :
    popMin [(⟨3, 0, 0, 7⟩ : Event)] = some (⟨3, 0, 0, 7⟩, []) ∧
    step { running := true, current_time := 100,
           event_queue := [⟨3, 0, 0, 7⟩], event_id_counter := 0, node_ids := [7] } =
      .dispatched ⟨3, 0, 0, 7⟩
        { running := true, current_time := 3, event_queue := [],
          event_id_counter := 0, node_ids := [7] } :=
  ⟨by decide,
    step_sets_clock_unconditionally
      { running := true, current_time := 100, event_queue := [⟨3, 0, 0, 7⟩],
        event_id_counter := 0, node_ids := [7] }
      ⟨3, 0, 0, 7⟩ [] rfl (by decide) (by decide)⟩

/-- **C8**: `schedule_event` never drops a transmission for an alive
node: whatever the duty-cycle manager's `enforce` returns, exactly one
`TX_START` event is appended to the queue, carrying the node's id and a
time no earlier than the requested one (the requested time is replaced
only when the enforced time is strictly later). -/
theorem scheduleEvent_defers_never_drops (enforce : ℕ → ℚ → ℚ)
    (dcm pp : Bool) (st : SimState) (nodeId : ℕ) (alive : Bool) (time : ℚ)
    (halive : alive = true) :
    ∃ e : Event,
      scheduleEvent enforce dcm pp st nodeId alive time =
        { st with event_id_counter := st.event_id_counter + 1,
                  event_queue := st.event_queue ++ [e] } ∧
      e.etype = txStartType ∧ e.node_id = nodeId ∧ e.id = st.event_id_counter ∧
      time ≤ e.time := by
  subst halive
  cases dcm with
  | false =>
    exact ⟨⟨time, txStartType, st.event_id_counter, nodeId⟩,
      by simp [scheduleEvent], rfl, rfl, rfl, le_refl time⟩
  | true =>
    cases pp with
    | true =>
      exact ⟨⟨time, txStartType, st.event_id_counter, nodeId⟩,
        by simp [scheduleEvent], rfl, rfl, rfl, le_refl time⟩
    | false =>
      by_cases hlt : time < enforce nodeId time
      · exact ⟨⟨enforce nodeId time, txStartType, st.event_id_counter, nodeId⟩,
          by simp [scheduleEvent, hlt], rfl, rfl, rfl, le_of_lt hlt⟩
      · exact ⟨⟨time, txStartType, st.event_id_counter, nodeId⟩,
          by simp [scheduleEvent, hlt], rfl, rfl, rfl, le_refl time⟩

theorem scheduleEvent_defers_never_drops_witness :
    ∃ e : Event,
      scheduleEvent (fun _ t => t + 7) true false
        { running := true, current_time := 0, event_queue := [],
          event_id_counter := 4, node_ids := [2] } 2 true 10 =
        { running := true, current_time := 0, event_queue := [] ++ [e],
          event_id_counter := 5, node_ids := [2] } ∧
      e.etype = txStartType ∧ e.node_id = 2 ∧ e.id = 4 ∧ (10 : ℚ) ≤ e.time :=
  scheduleEvent_defers_never_drops (fun _ t => t + 7) true false
    { running := true, current_time := 0, event_queue := [],
      event_id_counter := 4, node_ids := [2] } 2 true 10 rfl

/-! ### Gateway `end_reception` (claim C10) -/

theorem eraseP_event_id_not_mem (eid : ℕ) :
    ∀ st : List Tx, (st.map Tx.event_id).Nodup →
      ∀ u ∈ st.eraseP (fun t => decide (t.event_id = eid)), u.event_id ≠ eid := by
  intro st
  induction st with
  | nil =>
    intro _ u hu
    simp at hu
  | cons x xs ih =>
    intro hnd u hu
    rw [List.map_cons, List.nodup_cons] at hnd
    by_cases hx : x.event_id = eid
    · rw [List.eraseP_cons_of_pos (by simp [hx])] at hu
      intro hueq
      exact hnd.1 (hx ▸ hueq ▸ List.mem_map_of_mem Tx.event_id hu)
    · rw [List.eraseP_cons_of_neg (by simp [hx])] at hu
      rcases List.mem_cons.mp hu with rfl | hu'
      · exact hx
      · exact ih hnd.2 u hu'

theorem endReception_absent_noop (st : List Tx) (eid nid : ℕ)
    (hall : ∀ t ∈ st, t.event_id ≠ eid) :
    endReception st eid nid = (st, none) := by
  have hfind : st.find? (fun t => decide (t.event_id = eid)) = none := by
    rw [List.find?_eq_none]
    intro x hx
    simp [hall x hx]
  simp [endReception, hfind]

/-- **C10**: `end_reception` with an event id that has no active entry
is a no-op — no notification, state unchanged — and since a successful
`end_reception` removes the entry, a second call for the same id never
notifies again: each reception is reported to the network server at
most once per gateway. -/
theorem endReception_at_most_once (st : List Tx) (eid nid : ℕ)
    (hnd : (st.map Tx.event_id).Nodup) :
    ((∀ t ∈ st, t.event_id ≠ eid) → endReception st eid nid = (st, none)) ∧
    endReception (endReception st eid nid).1 eid nid =
      ((endReception st eid nid).1, none) := by
  refine ⟨endReception_absent_noop st eid nid, ?_⟩
  cases hfind : st.find? (fun t => decide (t.event_id = eid)) with
  | none =>
    have h1 : endReception st eid nid = (st, none) := by
      simp [endReception, hfind]
    rw [h1]
    exact endReception_absent_noop st eid nid
      (fun t ht => by simpa using List.find?_eq_none.mp hfind t ht)
  | some t =>
    have h1 : (endReception st eid nid).1 =
        st.eraseP (fun u => decide (u.event_id = eid)) := by
      by_cases hl : t.lost_flag = false <;> simp [endReception, hfind, hl]
    rw [h1]
    exact endReception_absent_noop _ eid nid (eraseP_event_id_not_mem eid st hnd)

theorem endReception_at_most_once_witness :
    (([⟨(11 : ℕ), 1, 7, 868000000, -50, 10, 0, 0, 0, 125000, false⟩] :
        List Tx).map Tx.event_id).Nodup ∧
    endReception
      (endReception [⟨11, 1, 7, 868000000, -50, 10, 0, 0, 0, 125000, false⟩] 11 1).1
      11 1 =
      ((endReception [⟨11, 1, 7, 868000000, -50, 10, 0, 0, 0, 125000, false⟩] 11 1).1,
        none) :=
  ⟨by decide,
    (endReception_at_most_once
      [⟨11, 1, 7, 868000000, -50, 10, 0, 0, 0, 125000, false⟩] 11 1 (by decide)).2⟩

/-! ### Network-server packet de-duplication (claim C7) -/

theorem sendDownlinkAdr_control_fields (st : ServerState) (nd : ServerNode)
    (sf : ℕ) (power : ℚ) (cm nt : ℕ) :
    (sendDownlinkAdr st nd sf power cm nt).received_events = st.received_events ∧
    (sendDownlinkAdr st nd sf power cm nt).event_gateway = st.event_gateway ∧
    (sendDownlinkAdr st nd sf power cm nt).packets_received = st.packets_received ∧
    (sendDownlinkAdr st nd sf power cm nt).duplicate_packets = st.duplicate_packets ∧
    (sendDownlinkAdr st nd sf power cm nt).adr_enabled = st.adr_enabled ∧
    (sendDownlinkAdr st nd sf power cm nt).adr_method = st.adr_method ∧
    (sendDownlinkAdr st nd sf power cm nt).noise_floor = st.noise_floor ∧
    (sendDownlinkAdr st nd sf power cm nt).has_gateway = st.has_gateway := by
  by_cases h : st.has_gateway = false <;> simp [sendDownlinkAdr, h]

theorem serverAdrStep_control_fields (st : ServerState) (nd : ServerNode) (r : ℚ) :
    (serverAdrStep st nd r).received_events = st.received_events ∧
    (serverAdrStep st nd r).event_gateway = st.event_gateway ∧
    (serverAdrStep st nd r).packets_received = st.packets_received ∧
    (serverAdrStep st nd r).duplicate_packets = st.duplicate_packets := by
  simp only [serverAdrStep]
  split_ifs <;> refine ⟨?_, ?_, ?_, ?_⟩ <;>
    first
      | rfl
      | (rw [(sendDownlinkAdr_control_fields _ _ _ _ _ _).1] <;> simp [adrChangedNodes])
      | (rw [(sendDownlinkAdr_control_fields _ _ _ _ _ _).2.1] <;>
          simp [adrChangedNodes])
      | (rw [(sendDownlinkAdr_control_fields _ _ _ _ _ _).2.2.1] <;>
          simp [adrChangedNodes])
      | (rw [(sendDownlinkAdr_control_fields _ _ _ _ _ _).2.2.2.1] <;>
          simp [adrChangedNodes])

theorem recordUplinkEnd_control_fields (st : ServerState) (nd : ServerNode)
    (et : Option ℚ) :
    (recordUplinkEnd st nd et).received_events = st.received_events ∧
    (recordUplinkEnd st nd et).event_gateway = st.event_gateway ∧
    (recordUplinkEnd st nd et).packets_received = st.packets_received ∧
    (recordUplinkEnd st nd et).duplicate_packets = st.duplicate_packets := by
  simp [recordUplinkEnd]

theorem activateIfNeeded_control_fields (st : ServerState) (nd : ServerNode) :
    (activateIfNeeded st nd).received_events = st.received_events ∧
    (activateIfNeeded st nd).event_gateway = st.event_gateway ∧
    (activateIfNeeded st nd).packets_received = st.packets_received ∧
    (activateIfNeeded st nd).duplicate_packets = st.duplicate_packets := by
  unfold activateIfNeeded
  split_ifs <;> simp

theorem answerAdrAckReq_control_fields (st : ServerState) (nd : ServerNode) :
    (answerAdrAckReq st nd).received_events = st.received_events ∧
    (answerAdrAckReq st nd).event_gateway = st.event_gateway ∧
    (answerAdrAckReq st nd).packets_received = st.packets_received ∧
    (answerAdrAckReq st nd).duplicate_packets = st.duplicate_packets := by
  unfold answerAdrAckReq
  split_ifs with h
  · have hs := sendDownlinkAdr_control_fields st nd nd.sf nd.tx_power nd.chmask nd.nb_trans
    exact ⟨hs.1, hs.2.1, hs.2.2.1, hs.2.2.2.1⟩
  · exact ⟨rfl, rfl, rfl, rfl⟩

theorem adrPhase_control_fields (st : ServerState) (node_id : ℕ) (rssi : Option ℚ) :
    (adrPhase st node_id rssi).received_events = st.received_events ∧
    (adrPhase st node_id rssi).event_gateway = st.event_gateway ∧
    (adrPhase st node_id rssi).packets_received = st.packets_received ∧
    (adrPhase st node_id rssi).duplicate_packets = st.duplicate_packets := by
  unfold adrPhase
  cases rssi with
  | none => exact ⟨rfl, rfl, rfl, rfl⟩
  | some r =>
    split_ifs with h
    · cases hfind : st.nodes.find? (fun n => n.id = node_id) with
      | none => simp
      | some nd' => simpa using serverAdrStep_control_fields st nd' r
    · exact ⟨rfl, rfl, rfl, rfl⟩

theorem receiveNodePhase_control_fields (st : ServerState) (node_id : ℕ)
    (rssi : Option ℚ) (end_time : Option ℚ) :
    (receiveNodePhase st node_id rssi end_time).received_events = st.received_events ∧
    (receiveNodePhase st node_id rssi end_time).event_gateway = st.event_gateway ∧
    (receiveNodePhase st node_id rssi end_time).packets_received = st.packets_received ∧
    (receiveNodePhase st node_id rssi end_time).duplicate_packets =
      st.duplicate_packets := by
  unfold receiveNodePhase
  cases hfind : st.nodes.find? (fun n => n.id = node_id) with
  | none => exact ⟨rfl, rfl, rfl, rfl⟩
  | some nd =>
    have h1 := recordUplinkEnd_control_fields st nd end_time
    have h2 := activateIfNeeded_control_fields (recordUplinkEnd st nd end_time) nd
    have h3 := answerAdrAckReq_control_fields
      (activateIfNeeded (recordUplinkEnd st nd end_time) nd) nd
    have h4 := adrPhase_control_fields
      (answerAdrAckReq (activateIfNeeded (recordUplinkEnd st nd end_time) nd) nd)
      node_id rssi
    exact ⟨by rw [h4.1, h3.1, h2.1, h1.1], by rw [h4.2.1, h3.2.1, h2.2.1, h1.2.1],
      by rw [h4.2.2.1, h3.2.2.1, h2.2.2.1, h1.2.2.1],
      by rw [h4.2.2.2, h3.2.2.2, h2.2.2.2, h1.2.2.2]⟩

/-- **C7**: for every transmission event id, only the first
`NetworkServer.receive` call counts a reception: it increments
`packets_received` and records the id with its gateway; a call whose id
was already received only increments `duplicate_packets`, leaving every
other server field — and all nodes — unchanged (the result is exactly
the input state with `duplicate_packets + 1`). -/
theorem receive_dedup (st : ServerState) (eid nid gid : ℕ)
    (rssi : Option ℚ) (et : Option ℚ) :
    (eid ∈ st.received_events →
      receive st eid nid gid rssi et =
        { st with duplicate_packets := st.duplicate_packets + 1 }) ∧
    (eid ∉ st.received_events →
      (receive st eid nid gid rssi et).packets_received = st.packets_received + 1 ∧
      (receive st eid nid gid rssi et).duplicate_packets = st.duplicate_packets ∧
      (receive st eid nid gid rssi et).received_events = eid :: st.received_events ∧
      (receive st eid nid gid rssi et).event_gateway = (eid, gid) :: st.event_gateway) := by
  constructor
  · intro hmem
    simp [receive, hmem]
  · intro hmem
    have hrec : receive st eid nid gid rssi et =
        receiveNodePhase (recordFirstReception st eid gid) nid rssi et := by
      simp [receive, hmem]
    rw [hrec]
    have h := receiveNodePhase_control_fields (recordFirstReception st eid gid)
      nid rssi et
    exact ⟨h.2.2.1, h.2.2.2, h.1, h.2.1⟩

theorem receive_dedup_witness :
    ((5 : ℕ) ∈ ([5] : List ℕ) ∧
      receive
        { received_events := [5], event_gateway := [(5, 1)], packets_received := 1,
          duplicate_packets := 0, nodes := [], downlinks := [],
          adr_enabled := false, adr_method := "max", noise_floor := -120,
          has_gateway := true } 5 3 2 none none =
        { received_events := [5], event_gateway := [(5, 1)], packets_received := 1,
          duplicate_packets := 1, nodes := [], downlinks := [],
          adr_enabled := false, adr_method := "max", noise_floor := -120,
          has_gateway := true }) ∧
    ((9 : ℕ) ∉ ([5] : List ℕ) ∧
      (receive
        { received_events := [5], event_gateway := [(5, 1)], packets_received := 1,
          duplicate_packets := 0, nodes := [], downlinks := [],
          adr_enabled := false, adr_method := "max", noise_floor := -120,
          has_gateway := true } 9 3 2 none none).packets_received = 2) := by
  constructor
  · exact ⟨by decide,
      (receive_dedup
        { received_events := [5], event_gateway := [(5, 1)], packets_received := 1,
          duplicate_packets := 0, nodes := [], downlinks := [],
          adr_enabled := false, adr_method := "max", noise_floor := -120,
          has_gateway := true } 5 3 2 none none).1 (by decide)⟩
  · exact ⟨by decide,
      ((receive_dedup
        { received_events := [5], event_gateway := [(5, 1)], packets_received := 1,
          duplicate_packets := 0, nodes := [], downlinks := [],
          adr_enabled := false, adr_method := "max", noise_floor := -120,
          has_gateway := true } 9 3 2 none none).2 (by decide)).1⟩

/-! ### Node ADR backoff (claim C6) -/

theorem checkAdrAckDelay_not_triggered (n : NodeSt)
    (h : n.adr_ack_cnt < n.adr_ack_limit + n.adr_ack_delay) :
    checkAdrAckDelay n = n := by
  unfold checkAdrAckDelay
  rw [if_neg (by omega)]

theorem checkAdrAckDelay_triggered (n : NodeSt)
    (h : n.adr_ack_limit + n.adr_ack_delay ≤ n.adr_ack_cnt) :
    (checkAdrAckDelay n).adr_ack_cnt = 0 ∧
    (n.sf < 12 → (checkAdrAckDelay n).sf = n.sf + 1 ∧
      (checkAdrAckDelay n).tx_power = n.tx_power) ∧
    (¬ n.sf < 12 → (checkAdrAckDelay n).sf = n.sf ∧
      (0 < (dbmToTxPowerIndex (pyInt n.tx_power)).getD 0 →
        (checkAdrAckDelay n).tx_power =
          (txPowerIndexToDbm ((dbmToTxPowerIndex (pyInt n.tx_power)).getD 0 - 1)).getD
            n.tx_power) ∧
      ((dbmToTxPowerIndex (pyInt n.tx_power)).getD 0 = 0 →
        (checkAdrAckDelay n).tx_power = n.tx_power)) := by
  unfold checkAdrAckDelay
  rw [if_pos h]
  by_cases hsf : n.sf < 12
  · simp [hsf]
  · rw [if_neg hsf]
    by_cases hidx : 0 < (dbmToTxPowerIndex (pyInt n.tx_power)).getD 0
    · refine ⟨by simp [hidx], fun h12 => absurd h12 hsf,
        fun _ => ⟨by simp [hidx], fun _ => by simp [hidx], fun h0 => by omega⟩⟩
    · refine ⟨by simp [hidx], fun h12 => absurd h12 hsf,
        fun _ => ⟨by simp [hidx], fun hp => absurd hp hidx, fun _ => by simp [hidx]⟩⟩

/-- **C6** (counterexample): a node at SF 12 with tx-power 14 dBm
(power index 0) whose `adr_ack_cnt` strictly exceeds
`adr_ack_limit + adr_ack_delay` after the uplink does *not* move its
tx-power index (nor its SF) — the backoff only resets the counter, so
the claimed "SF is raised by one if sf < 12, otherwise the tx-power
index is moved by one" fails at this state. -/
theorem prepareUplink_no_backoff_step_at_limit :
    (prepareUplink
      ⟨12, 14, true, true, false, 96, 64, 32, 0, false, false, 0⟩ false).1.sf = 12 ∧
    (prepareUplink
      ⟨12, 14, true, true, false, 96, 64, 32, 0, false, false, 0⟩ false).1.tx_power = 14 ∧
    (prepareUplink
      ⟨12, 14, true, true, false, 96, 64, 32, 0, false, false, 0⟩ false).1.adr_ack_cnt = 0 ∧
    64 + 32 < 96 + 1 := by
  refine ⟨?_, ?_, ?_, by norm_num⟩ <;> decide

/-- **C6** (amended): for an activated node with ADR enabled,
`prepare_uplink` increments `adr_ack_cnt` by exactly one; once the
incremented counter reaches or exceeds `adr_ack_limit + adr_ack_delay`
the node backs off — SF is raised by one if `sf < 12`; otherwise the
tx-power index is decremented by one when it is positive, and at SF 12
with power index 0 no transmission parameter changes — and
`adr_ack_cnt` is reset to 0; within `prepare_uplink` the counter is
reset only by this self-healing rule. -/
theorem prepareUplink_adr_counter (n : NodeSt) (confirmed : Bool)
    (hadr : n.adr = true) (hact : n.activated = true) :
    (n.adr_ack_cnt + 1 < n.adr_ack_limit + n.adr_ack_delay →
      (prepareUplink n confirmed).1.adr_ack_cnt = n.adr_ack_cnt + 1 ∧
      (prepareUplink n confirmed).1.sf = n.sf ∧
      (prepareUplink n confirmed).1.tx_power = n.tx_power) ∧
    (n.adr_ack_limit + n.adr_ack_delay ≤ n.adr_ack_cnt + 1 →
      (prepareUplink n confirmed).1.adr_ack_cnt = 0 ∧
      (n.sf < 12 → (prepareUplink n confirmed).1.sf = n.sf + 1 ∧
        (prepareUplink n confirmed).1.tx_power = n.tx_power) ∧
      (¬ n.sf < 12 → (prepareUplink n confirmed).1.sf = n.sf ∧
        (0 < (dbmToTxPowerIndex (pyInt n.tx_power)).getD 0 →
          (prepareUplink n confirmed).1.tx_power =
            (txPowerIndexToDbm
              ((dbmToTxPowerIndex (pyInt n.tx_power)).getD 0 - 1)).getD n.tx_power) ∧
        ((dbmToTxPowerIndex (pyInt n.tx_power)).getD 0 = 0 →
          (prepareUplink n confirmed).1.tx_power = n.tx_power))) ∧
    ((prepareUplink n confirmed).1.adr_ack_cnt = 0 →
      n.adr_ack_limit + n.adr_ack_delay ≤ n.adr_ack_cnt + 1) := by
  have hcnt : (prepareUplink n confirmed).1.adr_ack_cnt =
      (checkAdrAckDelay (preUplinkAdrState n)).adr_ack_cnt := by
    cases hw : n.awaiting_ack <;> cases confirmed <;>
      simp [prepareUplink, preUplinkAdrState, hact, hadr, hw]
  have hsfe : (prepareUplink n confirmed).1.sf =
      (checkAdrAckDelay (preUplinkAdrState n)).sf := by
    cases hw : n.awaiting_ack <;> cases confirmed <;>
      simp [prepareUplink, preUplinkAdrState, hact, hadr, hw]
  have htxe : (prepareUplink n confirmed).1.tx_power =
      (checkAdrAckDelay (preUplinkAdrState n)).tx_power := by
    cases hw : n.awaiting_ack <;> cases confirmed <;>
      simp [prepareUplink, preUplinkAdrState, hact, hadr, hw]
  refine ⟨fun h => ?_, fun h => ?_, fun hm => ?_⟩
  · have hid := checkAdrAckDelay_not_triggered (preUplinkAdrState n) h
    exact ⟨by rw [hcnt, hid]; simp [preUplinkAdrState],
      by rw [hsfe, hid]; simp [preUplinkAdrState],
      by rw [htxe, hid]; simp [preUplinkAdrState]⟩
  · have htrig := checkAdrAckDelay_triggered (preUplinkAdrState n) h
    refine ⟨by rw [hcnt]; exact htrig.1, fun hsf => ?_, fun hsf => ?_⟩
    · have h2 := htrig.2.1 hsf
      exact ⟨by rw [hsfe]; exact h2.1, by rw [htxe]; exact h2.2⟩
    · have h3 := htrig.2.2 hsf
      exact ⟨by rw [hsfe]; exact h3.1,
        fun hidx => by rw [htxe]; exact h3.2.1 hidx,
        fun h0 => by rw [htxe]; exact h3.2.2 h0⟩
  · by_cases hc : n.adr_ack_limit + n.adr_ack_delay ≤ n.adr_ack_cnt + 1
    · exact hc
    · rw [hcnt,
        checkAdrAckDelay_not_triggered (preUplinkAdrState n) (Nat.lt_of_not_le hc)] at hm
      exact absurd hm (by simp [preUplinkAdrState])

theorem prepareUplink_adr_counter_witness :
    (64 + 32 ≤ 95 + 1) ∧
    (prepareUplink ⟨10, 14, true, true, false, 95, 64, 32, 0, false, false, 0⟩
      false).1.sf = 10 + 1 ∧
    (prepareUplink ⟨10, 14, true, true, false, 95, 64, 32, 0, false, false, 0⟩
      false).1.adr_ack_cnt = 0 :=
  ⟨by norm_num,
    (((prepareUplink_adr_counter
      ⟨10, 14, true, true, false, 95, 64, 32, 0, false, false, 0⟩ false rfl rfl).2.1
      (by norm_num)).2.1 (by norm_num)).1,
    ((prepareUplink_adr_counter
      ⟨10, 14, true, true, false, 95, 64, 32, 0, false, false, 0⟩ false rfl rfl).2.1
      (by norm_num)).1⟩

/-! ### Server ADR loop (claim C5) -/

theorem spendSfDown_eq (n : ℕ) : ∀ sf : ℕ, 7 ≤ sf →
    spendSfDown n sf = (n - (sf - 7), if n ≤ sf - 7 then sf - n else 7) := by
  induction n with
  | zero =>
    intro sf hsf
    simp [spendSfDown]
  | succ k ih =>
    intro sf hsf
    by_cases h7 : 7 < sf
    · rw [show spendSfDown (k + 1) sf = spendSfDown k (sf - 1) from by
        simp [spendSfDown, h7]]
      rw [ih (sf - 1) (by omega)]
      simp only [Prod.mk.injEq]
      constructor
      · omega
      · split_ifs <;> omega
    · rw [show spendSfDown (k + 1) sf = (k + 1, sf) from by simp [spendSfDown, h7]]
      simp only [Prod.mk.injEq]
      constructor
      · omega
      · split_ifs <;> omega

theorem spendPowerUp_eq (n : ℕ) : ∀ p : ℕ, p ≤ 6 →
    spendPowerUp n p = (n - (6 - p), if n ≤ 6 - p then p + n else 6) := by
  induction n with
  | zero =>
    intro p hp
    simp [spendPowerUp]
  | succ k ih =>
    intro p hp
    by_cases h6 : p < maxPowerIndex
    · have h6' : p < 6 := h6
      rw [show spendPowerUp (k + 1) p = spendPowerUp k (p + 1) from by
        simp [spendPowerUp, h6]]
      rw [ih (p + 1) (by omega)]
      simp only [Prod.mk.injEq]
      constructor
      · omega
      · split_ifs <;> omega
    · have h6' : ¬ p < 6 := h6
      rw [show spendPowerUp (k + 1) p = (k + 1, p) from by simp [spendPowerUp, h6]]
      simp only [Prod.mk.injEq]
      constructor
      · omega
      · split_ifs <;> omega

theorem spendPowerDown_eq (n : ℕ) : ∀ p : ℕ,
    spendPowerDown n p = (n - p, p - n) := by
  induction n with
  | zero =>
    intro p
    simp [spendPowerDown]
  | succ k ih =>
    intro p
    by_cases h0 : 0 < p
    · rw [show spendPowerDown (k + 1) p = spendPowerDown k (p - 1) from by
        simp [spendPowerDown, h0]]
      rw [ih (p - 1)]
      simp only [Prod.mk.injEq]
      omega
    · rw [show spendPowerDown (k + 1) p = (k + 1, p) from by simp [spendPowerDown, h0]]
      simp only [Prod.mk.injEq]
      omega

theorem spendSfUp_eq (n : ℕ) : ∀ sf : ℕ, sf ≤ 12 →
    spendSfUp n sf = (n - (12 - sf), if n ≤ 12 - sf then sf + n else 12) := by
  induction n with
  | zero =>
    intro sf hsf
    simp [spendSfUp]
  | succ k ih =>
    intro sf hsf
    by_cases h12 : sf < 12
    · rw [show spendSfUp (k + 1) sf = spendSfUp k (sf + 1) from by
        simp [spendSfUp, h12]]
      rw [ih (sf + 1) (by omega)]
      simp only [Prod.mk.injEq]
      constructor
      · omega
      · split_ifs <;> omega
    · rw [show spendSfUp (k + 1) sf = (k + 1, sf) from by simp [spendSfUp, h12]]
      simp only [Prod.mk.injEq]
      constructor
      · omega
      · split_ifs <;> omega

theorem applyAdrSteps_pos (nstep : ℤ) (sf p : ℕ) (h : 0 < nstep)
    (hsf : 7 ≤ sf) (hp : p ≤ 6) :
    applyAdrSteps nstep sf p =
      (max 7 (sf - nstep.toNat),
       min 6 (p + (nstep.toNat - (sf - max 7 (sf - nstep.toNat))))) := by
  unfold applyAdrSteps
  rw [if_pos h]
  simp only [spendSfDown_eq nstep.toNat sf hsf, spendPowerUp_eq _ p hp,
    Prod.mk.injEq, max_def, min_def]
  generalize nstep.toNat = m
  constructor
  · split_ifs <;> omega
  · split_ifs <;> omega

theorem applyAdrSteps_nonpos (nstep : ℤ) (sf p : ℕ) (h : ¬ 0 < nstep)
    (hsf12 : sf ≤ 12) :
    applyAdrSteps nstep sf p =
      (min 12 (sf + ((-nstep).toNat - p)), p - (-nstep).toNat) := by
  unfold applyAdrSteps
  rw [if_neg h]
  by_cases hz : nstep < 0
  · rw [if_pos hz]
    simp only [spendPowerDown_eq _ p, spendSfUp_eq _ sf hsf12,
      Prod.mk.injEq, min_def]
    generalize (-nstep).toNat = m
    constructor
    · split_ifs <;> omega
    · trivial
  · rw [if_neg hz]
    have hz0 : nstep = 0 := by omega
    subst hz0
    simp only [Prod.mk.injEq, min_def]
    constructor
    · split_ifs with hc
      · simp only [Int.neg_zero, Int.toNat_zero] at hc ⊢
        omega
      · simp
    · simp

theorem dbmIdx_le_six (q : ℚ) : (dbmToTxPowerIndex (pyInt q)).getD 0 ≤ 6 := by
  unfold dbmToTxPowerIndex
  split <;> simp

/-- **C5**: the server ADR loop.  With exactly 19 stored samples the
new SNR fills the 20-sample window; the aggregate (`max` or `avg` per
configuration) gives `margin = aggregate − requiredSNR(sf) − 15` and
`nstep = round(margin/3)` (Python ties-to-even rounding); a positive
`nstep` first lowers SF towards 7 and then raises the power index up to
its maximum 6, a non-positive one first lowers the power index towards
0 and then raises SF up to 12 (closed forms below); when the result
differs from the node's current SF/power the change is applied, a
`LinkADRReq` downlink is queued and the window is cleared, otherwise
only the window is stored. -/
theorem sendDownlinkAdr_changed_eq_applied (st : ServerState) (nd : ServerNode)
    (sfN : ℕ) (powerN : ℚ) (hgw : st.has_gateway = true) :
    sendDownlinkAdr (adrChangedNodes st nd sfN powerN) nd sfN powerN
      nd.chmask nd.nb_trans = adrAppliedState st nd sfN powerN := by
  simp [sendDownlinkAdr, adrChangedNodes, adrAppliedState, hgw]

theorem serverAdrStep_window_and_steps (st : ServerState) (nd : ServerNode) (r : ℚ)
    (hsf7 : 7 ≤ nd.sf) (hsf12 : nd.sf ≤ 12) (hgw : st.has_gateway = true)
    (hlen : nd.snr_history.length = 19)
    (hist : List ℚ) (hhist : hist = nd.snr_history ++ [r - st.noise_floor])
    (snr_m : ℚ)
    (hsnrm : snr_m =
      if st.adr_method = "avg" then hist.sum / hist.length else qListMax hist)
    (nstep : ℤ)
    (hnstep : nstep = pyRound ((snr_m - requiredSNR nd.sf - marginDB) / 3))
    (p : ℕ) (hp : p = (dbmToTxPowerIndex (pyInt nd.tx_power)).getD 0)
    (sfN : ℕ)
    (hsfN : sfN = if 0 < nstep then max 7 (nd.sf - nstep.toNat)
      else min 12 (nd.sf + ((-nstep).toNat - p)))
    (pN : ℕ)
    (hpN : pN = if 0 < nstep then
      min 6 (p + (nstep.toNat - (nd.sf - max 7 (nd.sf - nstep.toNat))))
      else p - (-nstep).toNat)
    (powerN : ℚ) (hpowerN : powerN = (txPowerIndexToDbm pN).getD nd.tx_power) :
    (sfN ≠ nd.sf ∨ powerN ≠ nd.tx_power →
      serverAdrStep st nd r = adrAppliedState st nd sfN powerN) ∧
    (sfN = nd.sf ∧ powerN = nd.tx_power →
      serverAdrStep st nd r = adrHistoryState st nd hist) := by
  have hl : (nd.snr_history ++ [r - st.noise_floor]).length = 20 := by
    simp [hlen]
  have hl' : hist.length = 20 := by rw [hhist]; exact hl
  have hple : p ≤ 6 := by rw [hp]; exact dbmIdx_le_six _
  have hAAS : applyAdrSteps nstep nd.sf p = (sfN, pN) := by
    by_cases hpos : 0 < nstep
    · rw [applyAdrSteps_pos nstep nd.sf p hpos hsf7 hple, hsfN, hpN,
        if_pos hpos, if_pos hpos]
    · rw [applyAdrSteps_nonpos nstep nd.sf p hpos hsf12, hsfN, hpN,
        if_neg hpos, if_neg hpos]
  have hsnrm20 : snr_m =
      if st.adr_method = "avg" then hist.sum / (20 : ℚ) else qListMax hist := by
    rw [hsnrm, hl']
    norm_num
  have hmain : serverAdrStep st nd r =
      if sfN ≠ nd.sf ∨ powerN ≠ nd.tx_power then
        sendDownlinkAdr (adrChangedNodes st nd sfN powerN) nd sfN powerN
          nd.chmask nd.nb_trans
      else adrHistoryState st nd hist := by
    simp only [serverAdrStep]
    simp only [hl, lt_self_iff_false, ite_false, le_refl, ite_true, Nat.cast_ofNat]
    rw [← hhist, ← hsnrm20, ← hnstep, ← hp, hAAS]
    simp only [show ((sfN, pN).1 : ℕ) = sfN from rfl,
      show ((sfN, pN).2 : ℕ) = pN from rfl, ← hpowerN]
  rw [hmain]
  constructor
  · intro hch
    rw [if_pos hch, sendDownlinkAdr_changed_eq_applied st nd sfN powerN hgw]
  · intro hunch
    rw [if_neg (by simp [hunch.1, hunch.2])]

theorem serverAdrStep_window_and_steps_witness :
    serverAdrStep
      ⟨[], [], 0, 0, [⟨1, 7, 14, List.replicate 19 0, false, true, 1, 1, 0, none⟩],
        [], true, "avg", -150, true⟩
      ⟨1, 7, 14, List.replicate 19 0, false, true, 1, 1, 0, none⟩ 0 =
    adrHistoryState
      ⟨[], [], 0, 0, [⟨1, 7, 14, List.replicate 19 0, false, true, 1, 1, 0, none⟩],
        [], true, "avg", -150, true⟩
      ⟨1, 7, 14, List.replicate 19 0, false, true, 1, 1, 0, none⟩
      (List.replicate 19 0 ++ [0 - (-150)]) :=
  (serverAdrStep_window_and_steps
    ⟨[], [], 0, 0, [⟨1, 7, 14, List.replicate 19 0, false, true, 1, 1, 0, none⟩],
      [], true, "avg", -150, true⟩
    ⟨1, 7, 14, List.replicate 19 0, false, true, 1, 1, 0, none⟩ 0
    (by norm_num) (by norm_num) rfl (by simp)
    (List.replicate 19 0 ++ [0 - (-150)]) rfl
    (15 / 2) (by norm_num [List.sum_replicate])
    0 (by norm_num [pyRound, requiredSNR, marginDB])
    0 (by norm_num [pyInt, dbmToTxPowerIndex])
    7 (by norm_num)
    0 (by norm_num)
    14 rfl).2 ⟨rfl, rfl⟩

/-! ### Channel airtime (claim C9) -/

theorem ceil_two_mul_le (x : ℚ) : ⌈2 * x⌉ ≤ 2 * ⌈x⌉ := by
  rw [Int.ceil_le]
  push_cast
  have := Int.le_ceil x
  linarith

/-- Core bound for SF-monotonicity of the payload-symbol count: the
ceiling at SF is at most twice the ceiling at SF+1, whether the
denominator grows by 4 (same low-data-rate flag) or shrinks (flag turns
on at SF+1). -/
theorem payload_ceil_bound (N1 D1 D2 : ℚ) (hN1 : 8 ≤ N1) (hD1 : 20 ≤ D1)
    (hcase : D2 = D1 + 4 ∨ (D2 ≤ D1 ∧ 0 < D2)) :
    max ⌈N1 / D1⌉ 0 ≤ 2 * max ⌈(N1 - 4) / D2⌉ 0 := by
  have hD1pos : (0 : ℚ) < D1 := by linarith
  have hD2pos : (0 : ℚ) < D2 := by
    rcases hcase with h | h
    · linarith
    · exact h.2
  have hN2pos : (0 : ℚ) < N1 - 4 := by linarith
  have hb1 : 1 ≤ ⌈(N1 - 4) / D2⌉ := Int.ceil_pos.mpr (div_pos hN2pos hD2pos)
  have hbmax : max ⌈(N1 - 4) / D2⌉ 0 = ⌈(N1 - 4) / D2⌉ :=
    max_eq_left (by linarith)
  rw [hbmax]
  have hb : N1 - 4 ≤ (⌈(N1 - 4) / D2⌉ : ℚ) * D2 := by
    have h1 := Int.le_ceil ((N1 - 4) / D2)
    have := (div_le_iff hD2pos).mp h1
    linarith
  have hgoal : ⌈N1 / D1⌉ ≤ 2 * ⌈(N1 - 4) / D2⌉ := by
    rw [Int.ceil_le]
    push_cast
    rw [div_le_iff hD1pos]
    have hb1'' : (1 : ℚ) ≤ (⌈(N1 - 4) / D2⌉ : ℚ) := by exact_mod_cast hb1
    set b : ℚ := (⌈(N1 - 4) / D2⌉ : ℚ) with hbdef
    have hb1' : (1 : ℚ) ≤ b := hb1''
    rcases hcase with h | h
    · -- D2 = D1 + 4
      have hN1b : N1 ≤ b * D1 + 4 * b + 4 := by
        rw [h] at hb
        nlinarith
      nlinarith
    · -- D2 ≤ D1
      have h2N : N1 ≤ 2 * (N1 - 4) := by linarith
      have hdiv : (N1 - 4) / D2 ≤ b := Int.le_ceil _
      have : N1 - 4 ≤ b * D2 := by
        have := (div_le_iff hD2pos).mp hdiv
        linarith
      nlinarith [h.1, hb1']
  calc max ⌈N1 / D1⌉ 0 ≤ 2 * ⌈(N1 - 4) / D2⌉ := by
        rcases max_cases ⌈N1 / D1⌉ 0 with ⟨heq, _⟩ | ⟨heq, _⟩ <;> rw [heq] <;> omega
    _ = 2 * ⌈(N1 - 4) / D2⌉ := rfl

theorem payloadDenominator_pos (c : ChannelCfg) (sf : ℕ) (hsf7 : 7 ≤ sf) :
    0 < payloadDenominator c sf := by
  unfold payloadDenominator lowDataRateOpt
  split_ifs <;> omega

theorem payloadDenominator_ge (c : ChannelCfg) (sf : ℕ) (hsf7 : 7 ≤ sf) :
    20 ≤ payloadDenominator c sf := by
  unfold payloadDenominator lowDataRateOpt
  split_ifs <;> omega

theorem nPayload_le_two_mul (c : ChannelCfg) (sf n : ℕ) (hsf7 : 7 ≤ sf)
    (hsf11 : sf ≤ 11) (hn : 1 ≤ n) :
    nPayload c sf n ≤ 2 * nPayload c (sf + 1) n := by
  have hN1z : (8 : ℤ) ≤ payloadNumerator sf n := by
    unfold payloadNumerator
    omega
  have hN1 : (8 : ℚ) ≤ (payloadNumerator sf n : ℚ) := by exact_mod_cast hN1z
  have hN2 : (payloadNumerator (sf + 1) n : ℚ) = (payloadNumerator sf n : ℚ) - 4 := by
    unfold payloadNumerator
    push_cast
    ring
  have hD1 : (20 : ℚ) ≤ (payloadDenominator c sf : ℚ) := by
    exact_mod_cast payloadDenominator_ge c sf hsf7
  have hcase : (payloadDenominator c (sf + 1) : ℚ) = (payloadDenominator c sf : ℚ) + 4 ∨
      ((payloadDenominator c (sf + 1) : ℚ) ≤ (payloadDenominator c sf : ℚ) ∧
        (0 : ℚ) < (payloadDenominator c (sf + 1) : ℚ)) := by
    by_cases h1 : c.low_data_rate_threshold ≤ sf
    · left
      have h2 : c.low_data_rate_threshold ≤ sf + 1 := by omega
      have : payloadDenominator c (sf + 1) = payloadDenominator c sf + 4 := by
        unfold payloadDenominator lowDataRateOpt
        rw [if_pos h1, if_pos h2]
        push_cast
        ring
      exact_mod_cast congrArg (fun z : ℤ => (z : ℚ)) this
    · by_cases h2 : c.low_data_rate_threshold ≤ sf + 1
      · right
        constructor
        · have : payloadDenominator c (sf + 1) ≤ payloadDenominator c sf := by
            unfold payloadDenominator lowDataRateOpt
            rw [if_neg h1, if_pos h2]
            omega
          exact_mod_cast this
        · exact_mod_cast payloadDenominator_pos c (sf + 1) (by omega)
      · left
        have : payloadDenominator c (sf + 1) = payloadDenominator c sf + 4 := by
          unfold payloadDenominator lowDataRateOpt
          rw [if_neg h1, if_neg h2]
          push_cast
          ring
        exact_mod_cast congrArg (fun z : ℤ => (z : ℚ)) this
  have hbound := payload_ceil_bound (payloadNumerator sf n : ℚ)
    (payloadDenominator c sf : ℚ) (payloadDenominator c (sf + 1) : ℚ) hN1 hD1 hcase
  rw [← hN2] at hbound
  unfold nPayload
  have hk : (0 : ℤ) ≤ (c.coding_rate : ℤ) + 4 := by positivity
  have h := mul_le_mul_of_nonneg_right hbound hk
  ring_nf at h ⊢
  linarith

theorem nPayload_mono_payload (c : ChannelCfg) (sf n m : ℕ) (hsf7 : 7 ≤ sf)
    (hnm : n ≤ m) : nPayload c sf n ≤ nPayload c sf m := by
  have hNz : payloadNumerator sf n ≤ payloadNumerator sf m := by
    unfold payloadNumerator
    omega
  have hN : (payloadNumerator sf n : ℚ) ≤ (payloadNumerator sf m : ℚ) := by
    exact_mod_cast hNz
  have hD : (0 : ℚ) < (payloadDenominator c sf : ℚ) := by
    exact_mod_cast payloadDenominator_pos c sf hsf7
  have hceil : ⌈(payloadNumerator sf n : ℚ) / (payloadDenominator c sf : ℚ)⌉ ≤
      ⌈(payloadNumerator sf m : ℚ) / (payloadDenominator c sf : ℚ)⌉ :=
    Int.ceil_le_ceil (by apply div_le_div_of_nonneg_right hN hD.le)
  unfold nPayload
  have hk : (0 : ℤ) ≤ (c.coding_rate : ℤ) + 4 := by positivity
  have := mul_le_mul_of_nonneg_right (max_le_max hceil (le_refl (0 : ℤ))) hk
  linarith

theorem airtime_lt_succ (c : ChannelCfg) (hbw : 0 < c.bandwidth)
    (hpre : 0 ≤ c.preamble_symbols) (sf n : ℕ) (hsf7 : 7 ≤ sf) (hsf11 : sf ≤ 11)
    (hn : 1 ≤ n) : airtime c sf n < airtime c (sf + 1) n := by
  simp only [airtime]
  have h2 : (1 : ℚ) / (c.bandwidth / 2 ^ (sf + 1)) =
      2 * (1 / (c.bandwidth / 2 ^ sf)) := by
    rw [one_div_div, one_div_div, pow_succ]
    ring
  rw [h2]
  have hts : (0 : ℚ) < 1 / (c.bandwidth / 2 ^ sf) := by positivity
  have hnp : (nPayload c sf n : ℚ) ≤ 2 * (nPayload c (sf + 1) n : ℚ) := by
    exact_mod_cast nPayload_le_two_mul c sf n hsf7 hsf11 hn
  have hC : (0 : ℚ) < c.preamble_symbols + 17 / 4 := by linarith
  have hlin : (c.preamble_symbols + 17 / 4) + (nPayload c sf n : ℚ) <
      2 * ((c.preamble_symbols + 17 / 4) + (nPayload c (sf + 1) n : ℚ)) := by
    linarith
  nlinarith [mul_lt_mul_of_pos_right hlin hts]

theorem airtime_mono_payload (c : ChannelCfg) (hbw : 0 < c.bandwidth)
    (sf n m : ℕ) (hsf7 : 7 ≤ sf) (hnm : n ≤ m) :
    airtime c sf n ≤ airtime c sf m := by
  simp only [airtime]
  have hts : (0 : ℚ) ≤ 1 / (c.bandwidth / 2 ^ sf) := by positivity
  have hnp : (nPayload c sf n : ℚ) ≤ (nPayload c sf m : ℚ) := by
    exact_mod_cast nPayload_mono_payload c sf n m hsf7 hnm
  have := mul_le_mul_of_nonneg_right hnp hts
  linarith

/-- **C9** (counterexample): with the constructor's configuration
(125 kHz, CR 4/5, preamble 8, LDRO threshold 11) the payload ceiling
plateaus: a 2-byte and a 3-byte payload at SF7 have the *same* airtime,
so `airtime(sf, n)` is not strictly increasing in `n`. -/
theorem airtime_payload_plateau :
    (2 : ℕ) < 3 ∧ airtime defaultChannel 7 2 = airtime defaultChannel 7 3 := by
  refine ⟨by norm_num, ?_⟩
  have hc1 : ⌈(payloadNumerator 7 2 : ℚ) / (payloadDenominator defaultChannel 7 : ℚ)⌉ =
      2 := by
    norm_num [payloadNumerator, payloadDenominator, lowDataRateOpt, defaultChannel,
      Int.ceil_eq_iff]
  have hc2 : ⌈(payloadNumerator 7 3 : ℚ) / (payloadDenominator defaultChannel 7 : ℚ)⌉ =
      2 := by
    norm_num [payloadNumerator, payloadDenominator, lowDataRateOpt, defaultChannel,
      Int.ceil_eq_iff]
  simp only [airtime, nPayload]
  rw [hc1, hc2]

/-- **C9** (amended): for every channel configuration with positive
bandwidth and non-negative preamble length, any coding rate and any
low-data-rate threshold, `airtime` is strictly increasing in `sf`
across 7..12, monotonically non-decreasing (not strictly) in the
payload size, and the symbol rate `bandwidth / 2^sf` halves exactly
once per unit SF increase. -/
theorem airtime_monotonicity (c : ChannelCfg) (hbw : 0 < c.bandwidth)
    (hpre : 0 ≤ c.preamble_symbols) (sf n m : ℕ) (hsf7 : 7 ≤ sf) (hsf11 : sf ≤ 11)
    (hn : 1 ≤ n) (hnm : n ≤ m) :
    airtime c sf n < airtime c (sf + 1) n ∧
    airtime c sf n ≤ airtime c sf m ∧
    symbolRate c (sf + 1) = symbolRate c sf / 2 :=
  ⟨airtime_lt_succ c hbw hpre sf n hsf7 hsf11 hn,
   airtime_mono_payload c hbw sf n m hsf7 hnm,
   by rw [symbolRate, symbolRate, pow_succ, div_div]⟩

theorem airtime_monotonicity_witness :
    (0 : ℚ) < 125000 ∧
    airtime defaultChannel 7 1 < airtime defaultChannel 8 1 ∧
    airtime defaultChannel 7 1 ≤ airtime defaultChannel 7 5 ∧
    symbolRate defaultChannel 8 = symbolRate defaultChannel 7 / 2 := by
  have h := airtime_monotonicity defaultChannel (by norm_num [defaultChannel])
    (by norm_num [defaultChannel]) 7 1 5 (by norm_num) (by norm_num) (by norm_num)
    (by norm_num)
  exact ⟨by norm_num, h.1, h.2.1, h.2.2⟩

/-! ### Gateway capture arbitration (claims C1, C2) -/

theorem eraseIdx_ne_nil_of_two_le {α : Type} (l : List α) (i : ℕ)
    (h : 2 ≤ l.length) : l.eraseIdx i ≠ [] := by
  cases l with
  | nil => simp at h
  | cons x xs =>
    cases xs with
    | nil => simp at h
    | cons y ys =>
      cases i with
      | zero => simp [List.eraseIdx]
      | succ j => simp [List.eraseIdx]

/-- **C2**: in basic capture mode, an arriving transmission with the
same RSSI, SF, frequency and start time as the one already active
(zero offsets, overlap above the interference threshold) produces a
symmetric loss: both are marked lost — the active entry is removed, the
new one is never added, leaving the channel free — and `end_reception`
subsequently reports neither of them to the network server. -/
theorem startReception_symmetric_collision (A : Tx) (a : RxArgs)
    (hsf : A.sf = a.sf) (hfreq : A.frequency = a.frequency)
    (hrssi : A.rssi = a.rssi) (hstart : A.start_time = a.current_time)
    (hAfo : A.freq_offset = 0) (hafo : a.freq_offset = 0)
    (hAso : A.sync_offset = 0) (haso : a.sync_offset = 0)
    (hend : a.current_time < A.end_time)
    (hover : a.min_interference_time < min A.end_time a.end_time - a.current_time)
    (hbw : 0 < a.bandwidth) (hid : A.event_id ≠ a.event_id)
    (horth : a.orthogonal_sf = true) :
    startReception .basic [A] a = [] ∧
    endReception (startReception .basic [A] a) A.event_id A.node_id = ([], none) ∧
    endReception (startReception .basic [A] a) a.event_id a.node_id = ([], none) := by
  have hint : interferingOf [A] a = [A] := by
    simp [interferingOf, horth, hsf, hfreq, hend, hover]
  have histar : (ranking CaptureMode.basic a ([A] ++ [newTx a])).istar = 0 := by
    show firstMaxIdx (([A] ++ [newTx a]).map (fun t => t.rssi)) = 0
    simp [firstMaxIdx, newTx, hrssi]
  have hcap : ¬ captureHappens .basic [A] a := by
    intro hc
    simp only [captureHappens, hint] at hc
    rw [histar] at hc
    have h2 := hc.2.2
    rw [show (([A] ++ [newTx a]).getD 0 default) = A from rfl] at h2
    rw [hstart, sub_self] at h2
    have h2p : (0 : ℚ) < (2 : ℚ) ^ a.sf := pow_pos (by norm_num) _
    have hq := div_pos h2p hbw
    linarith
  have hres : startReception .basic [A] a = [] := by
    simp only [startReception, hint]
    rw [if_neg (show ¬([A] : List Tx) = [] by simp), if_neg hcap]
    simp
  refine ⟨hres, ?_, ?_⟩ <;> rw [hres] <;> rfl

theorem startReception_symmetric_collision_witness :
    startReception .basic [(⟨1, 1, 7, 868, -80, 10, 0, 0, 0, 125000, false⟩ : Tx)]
        (⟨2, 2, 7, -80, 10, 6, 0, 868, 0, 0, 0, 125000, none, true⟩ : RxArgs) = [] ∧
    endReception
      (startReception .basic [(⟨1, 1, 7, 868, -80, 10, 0, 0, 0, 125000, false⟩ : Tx)]
        (⟨2, 2, 7, -80, 10, 6, 0, 868, 0, 0, 0, 125000, none, true⟩ : RxArgs)) 1 1 =
      ([], none) ∧
    endReception
      (startReception .basic [(⟨1, 1, 7, 868, -80, 10, 0, 0, 0, 125000, false⟩ : Tx)]
        (⟨2, 2, 7, -80, 10, 6, 0, 868, 0, 0, 0, 125000, none, true⟩ : RxArgs)) 2 2 =
      ([], none) :=
  startReception_symmetric_collision
    ⟨1, 1, 7, 868, -80, 10, 0, 0, 0, 125000, false⟩
    ⟨2, 2, 7, -80, 10, 6, 0, 868, 0, 0, 0, 125000, none, true⟩
    rfl rfl rfl rfl rfl rfl rfl rfl (by norm_num) (by norm_num [min_self])
    (by norm_num) (by decide) rfl

theorem ranking_basic_eq (a : RxArgs) (c : List Tx) :
    ranking CaptureMode.basic a c = rankBasic c := rfl

theorem interferingOf_weak : interferingOf [txWeak] rxStrong = [txWeak] := by
  norm_num [interferingOf, txWeak, rxStrong, min_self]

theorem rank_weak :
    ranking CaptureMode.basic rxStrong ([txWeak] ++ [newTx rxStrong]) =
      ⟨1, (-50 : ℝ), ((-100 : ℝ) : WithBot ℝ)⟩ := by
  have h1 : firstMaxIdx (([txWeak] ++ [newTx rxStrong]).map (fun t => t.rssi)) = 1 := by
    norm_num [firstMaxIdx, txWeak, rxStrong, newTx]
  have hff : penaltyFreqFactor (newTx rxStrong) txWeak = 0 := by
    norm_num [penaltyFreqFactor, txWeak, rxStrong, newTx]
  have htf : penaltyTimeFactor (newTx rxStrong) txWeak = 0 := by
    norm_num [penaltyTimeFactor, txWeak, rxStrong, newTx]
  have hni : ¬ penaltyInf (newTx rxStrong) txWeak := by
    simp only [penaltyInf, hff, htf]
    norm_num
  have hpv : penaltyVal (newTx rxStrong) txWeak = 0 := by
    simp only [penaltyVal, hff, htf]
    norm_num [Real.logb_one]
  have hbm : basicMetric (newTx rxStrong) txWeak = ((-100 : ℝ) : WithBot ℝ) := by
    simp only [basicMetric, if_neg hni, hpv]
    norm_num [txWeak]
  rw [ranking_basic_eq]
  simp only [rankBasic, h1]
  rw [show ([txWeak] ++ [newTx rxStrong]).getD 1 default = newTx rxStrong from rfl]
  rw [show ([txWeak] ++ [newTx rxStrong]).eraseIdx 1 = [txWeak] from rfl]
  simp only [List.map_cons, List.map_nil, hbm]
  rw [show listMaxWB [((-100 : ℝ) : WithBot ℝ)] = max ⊥ ((-100 : ℝ) : WithBot ℝ) from rfl,
    max_eq_right bot_le]
  norm_num [newTx, rxStrong]

theorem no_capture_weak : ¬ captureHappens CaptureMode.basic [txWeak] rxStrong := by
  intro hc
  simp only [captureHappens, interferingOf_weak] at hc
  rw [rank_weak] at hc
  exact hc.2.1 rfl

theorem startReception_weak :
    startReception CaptureMode.basic [txWeak] rxStrong = [] := by
  simp only [startReception, interferingOf_weak]
  rw [if_neg (show ¬([txWeak] : List Tx) = [] by simp), if_neg no_capture_weak]
  simp

theorem interferingOf_cap : interferingOf [txCap] rxCap = [txCap] := by
  norm_num [interferingOf, txCap, rxCap, min_self]

theorem rank_cap :
    ranking CaptureMode.basic rxCap ([txCap] ++ [newTx rxCap]) =
      ⟨0, (-50 : ℝ), ((-56 : ℝ) : WithBot ℝ)⟩ := by
  have h0 : firstMaxIdx (([txCap] ++ [newTx rxCap]).map (fun t => t.rssi)) = 0 := by
    norm_num [firstMaxIdx, txCap, rxCap, newTx]
  have hff : penaltyFreqFactor txCap (newTx rxCap) = 0 := by
    norm_num [penaltyFreqFactor, txCap, rxCap, newTx]
  have htf : penaltyTimeFactor txCap (newTx rxCap) = 0 := by
    norm_num [penaltyTimeFactor, txCap, rxCap, newTx]
  have hni : ¬ penaltyInf txCap (newTx rxCap) := by
    simp only [penaltyInf, hff, htf]
    norm_num
  have hpv : penaltyVal txCap (newTx rxCap) = 0 := by
    simp only [penaltyVal, hff, htf]
    norm_num [Real.logb_one]
  have hbm : basicMetric txCap (newTx rxCap) = ((-56 : ℝ) : WithBot ℝ) := by
    simp only [basicMetric, if_neg hni, hpv]
    norm_num [newTx, rxCap]
  rw [ranking_basic_eq]
  simp only [rankBasic, h0]
  rw [show ([txCap] ++ [newTx rxCap]).getD 0 default = txCap from rfl]
  rw [show ([txCap] ++ [newTx rxCap]).eraseIdx 0 = [newTx rxCap] from rfl]
  simp only [List.map_cons, List.map_nil, hbm]
  rw [show listMaxWB [((-56 : ℝ) : WithBot ℝ)] = max ⊥ ((-56 : ℝ) : WithBot ℝ) from rfl,
    max_eq_right bot_le]
  norm_num [txCap]

theorem capture_cap : captureHappens CaptureMode.basic [txCap] rxCap := by
  simp only [captureHappens, interferingOf_cap]
  rw [rank_cap]
  refine ⟨Or.inr ⟨?_, ?_⟩, ?_, ?_⟩
  · intro s hs
    have hs' : ((-56 : ℝ) : WithBot ℝ) = (s : WithBot ℝ) := hs
    have hsv : (-56 : ℝ) = s := WithBot.coe_eq_coe.mp hs'
    rw [← hsv]
    norm_num [rxCap]
  · intro t ht hne
    rw [show (([txCap] ++ [newTx rxCap]).getD
      (Ranking.istar ⟨0, (-50 : ℝ), ((-56 : ℝ) : WithBot ℝ)⟩) default) = txCap from rfl] at hne ⊢
    rcases (by simpa using ht : t = txCap ∨ t = newTx rxCap) with h | h
    · rw [h] at hne
      exact absurd rfl hne
    · rw [h]
      constructor
      · norm_num [newTx, txCap, rxCap]
      · norm_num [newTx, txCap, rxCap]
  · rw [show (([txCap] ++ [newTx rxCap]).getD
      (Ranking.istar ⟨0, (-50 : ℝ), ((-56 : ℝ) : WithBot ℝ)⟩) default) = txCap from rfl]
    norm_num [txCap, rxCap]
  · rw [show (([txCap] ++ [newTx rxCap]).getD
      (Ranking.istar ⟨0, (-50 : ℝ), ((-56 : ℝ) : WithBot ℝ)⟩) default) = txCap from rfl]
    norm_num [txCap, rxCap]

theorem startReception_cap :
    startReception CaptureMode.basic [txCap] rxCap = [txCap] := by
  simp only [startReception, interferingOf_cap]
  rw [if_neg (show ¬([txCap] : List Tx) = [] by simp), if_pos capture_cap]
  rw [rank_cap]
  rw [show (([txCap] ++ [newTx rxCap]).getD
    (Ranking.istar ⟨0, (-50 : ℝ), ((-56 : ℝ) : WithBot ℝ)⟩) default) = txCap from rfl]
  rw [if_neg (show ¬(txCap.event_id = rxCap.event_id) by norm_num [txCap, rxCap])]
  simp

/-- **C1** is refuted on two concrete basic-mode calls.  First, a new
arrival 50 dB above the only active transmission (threshold 6 dB)
strictly exceeds the runner-up margin, yet capture fails and both
signals are lost — the winner must additionally be a previously active
transmission that started at least five symbol durations before the
current time.  Second, a winner whose margin equals the threshold
exactly (6 dB = 6 dB) does capture the channel, so the margin condition
is `>=`, not strictly greater. -/
theorem startReception_margin_not_iff :
    ((ranking CaptureMode.basic rxStrong
        (interferingOf [txWeak] rxStrong ++ [newTx rxStrong])).metric = (-50 : ℝ) ∧
     (ranking CaptureMode.basic rxStrong
        (interferingOf [txWeak] rxStrong ++ [newTx rxStrong])).second =
       ((-100 : ℝ) : WithBot ℝ) ∧
     ((rxStrong.capture_threshold : ℝ) < (-50 : ℝ) - (-100 : ℝ)) ∧
     ¬ captureHappens CaptureMode.basic [txWeak] rxStrong ∧
     startReception CaptureMode.basic [txWeak] rxStrong = []) ∧
    ((ranking CaptureMode.basic rxCap
        (interferingOf [txCap] rxCap ++ [newTx rxCap])).metric = (-50 : ℝ) ∧
     (ranking CaptureMode.basic rxCap
        (interferingOf [txCap] rxCap ++ [newTx rxCap])).second =
       ((-56 : ℝ) : WithBot ℝ) ∧
     ((rxCap.capture_threshold : ℝ) = (-50 : ℝ) - (-56 : ℝ)) ∧
     captureHappens CaptureMode.basic [txCap] rxCap ∧
     startReception CaptureMode.basic [txCap] rxCap = [txCap]) := by
  constructor
  · rw [interferingOf_weak]
    exact ⟨by rw [rank_weak], by rw [rank_weak], by norm_num [rxStrong],
      no_capture_weak, startReception_weak⟩
  · rw [interferingOf_cap]
    exact ⟨by rw [rank_cap], by rw [rank_cap], by norm_num [rxCap],
      capture_cap, startReception_cap⟩

/-- **C1** (amended): with at least one interfering active reception,
capture happens if and only if the top-ranked collider's metric exceeds
the runner-up's by at least `capture_threshold` (vacuous when there is
no runner-up metric), every other collider started at least five of the
winner's symbol durations after it, and the winner is a previously
active transmission that started at least five of the new
transmission's symbol durations before the current time; on success the
winner (never the new transmission) is the sole interferer kept active
and every other interferer is removed, and on failure every interferer
is removed and the new transmission is dropped. -/
theorem startReception_capture_iff (mode : CaptureMode) (st : List Tx) (a : RxArgs)
    (colliders : List Tx) (r : Ranking) (strongest : Tx)
    (hcol : colliders = interferingOf st a ++ [newTx a])
    (hr : r = ranking mode a colliders)
    (hstr : strongest = colliders.getD r.istar default)
    (hne : interferingOf st a ≠ []) :
    (captureHappens mode st a ↔
      (marginOk a.capture_threshold r ∧ enoughPreamble a strongest colliders) ∧
        captureElapsedOk a strongest) ∧
    (captureHappens mode st a →
      strongest.event_id ≠ a.event_id ∧
      startReception mode st a =
        st.filter (fun t => decide (¬(t ∈ interferingOf st a ∧
          t.event_id ≠ strongest.event_id)))) ∧
    (¬ captureHappens mode st a →
      startReception mode st a =
        st.filter (fun t => decide (t ∉ interferingOf st a))) := by
  subst hcol
  subst hr
  subst hstr
  have hlen : 2 ≤ (interferingOf st a ++ [newTx a]).length := by
    cases hc : interferingOf st a with
    | nil => exact absurd hc hne
    | cons x xs =>
      simp only [hc, List.length_append, List.length_cons]
      omega
  have hns : (interferingOf st a ++ [newTx a]).eraseIdx
      (ranking mode a (interferingOf st a ++ [newTx a])).istar ≠ [] :=
    eraseIdx_ne_nil_of_two_le _ _ hlen
  have hiff : captureHappens mode st a ↔
      (marginOk a.capture_threshold (ranking mode a (interferingOf st a ++ [newTx a])) ∧
        enoughPreamble a
          ((interferingOf st a ++ [newTx a]).getD
            (ranking mode a (interferingOf st a ++ [newTx a])).istar default)
          (interferingOf st a ++ [newTx a])) ∧
      captureElapsedOk a
        ((interferingOf st a ++ [newTx a]).getD
          (ranking mode a (interferingOf st a ++ [newTx a])).istar default) := by
    simp only [captureHappens]
    constructor
    · rintro ⟨h1 | h1, h2⟩
      · exact absurd h1 hns
      · exact ⟨h1, h2⟩
    · rintro ⟨h1, h2⟩
      exact ⟨Or.inr h1, h2⟩
  refine ⟨hiff, ?_, ?_⟩
  · intro hcap
    have hel := (hiff.mp hcap).2
    refine ⟨hel.1, ?_⟩
    simp only [startReception]
    rw [if_neg hne, if_pos hcap, if_neg hel.1]
  · intro hncap
    simp only [startReception]
    rw [if_neg hne, if_neg hncap]

theorem startReception_capture_iff_witness :
    captureHappens CaptureMode.basic [txCap] rxCap ∧
    txCap.event_id ≠ rxCap.event_id ∧
    startReception CaptureMode.basic [txCap] rxCap =
      [txCap].filter (fun t => decide (¬(t ∈ interferingOf [txCap] rxCap ∧
        t.event_id ≠ txCap.event_id))) := by
  have h := startReception_capture_iff CaptureMode.basic [txCap] rxCap
    ([txCap] ++ [newTx rxCap])
    (ranking CaptureMode.basic rxCap ([txCap] ++ [newTx rxCap]))
    txCap
    (by rw [interferingOf_cap])
    rfl
    (by rw [rank_cap]; rfl)
    (by rw [interferingOf_cap]; simp)
  exact ⟨capture_cap, (h.2.1 capture_cap).1, (h.2.1 capture_cap).2⟩

end LoRaSim
